import Mathlib

/-!
Shallow embedding of the multi-client fan-out sink core
(`src/gst/tcp/gstmultifdsink.c`) and proofs about its documented
behaviour.  Buffers are modelled as size / optional-timestamp / flag
records, the global queue as a `List` with index 0 the newest buffer,
and each C function as a pure Lean function translated clause by clause
from the source.  Machine integers: `gint`/`gint64` values that can be
-1 sentinels are `Int`; `guint64` quantities (sizes, timestamps, burst
values) are `Nat`, with the 64-bit wrap-around of timestamp differences
made explicit via `sub64`.
-/

namespace MultiFdSink

/-- Client status, `GstClientStatus` from `gsttcp`-land. -/
inductive GstClientStatus
  | ok | closed | removed | slow | error | flushing | duplicate
  deriving DecidableEq, Repr

/-- `GstSyncMethod`. -/
inductive GstSyncMethod
  | latest | nextKeyframe | latestKeyframe | burst | burstKeyframe | burstWithKeyframe
  deriving DecidableEq, Repr

/-- `GstTCPUnitType`. -/
inductive GstTCPUnitType
  | undefined | buffers | bytes | time
  deriving DecidableEq, Repr

/-- `GstRecoverPolicy`. -/
inductive GstRecoverPolicy
  | none | resyncLatest | resyncSoftLimit | resyncKeyframe
  deriving DecidableEq, Repr

/-- A media buffer: opaque payload abstracted to its byte size, an
optional presentation timestamp (`none` = `GST_CLOCK_TIME_NONE`), and
the two flags the sink inspects (`GST_BUFFER_FLAG_DELTA_UNIT`,
`GST_BUFFER_FLAG_HEADER`). -/
structure GstBuffer where
  size : Nat
  timestamp : Option Nat
  isDelta : Bool
  isHeader : Bool
  deriving DecidableEq, Repr

instance : Inhabited GstBuffer := ⟨⟨0, Option.none, false, false⟩⟩

/-- 64-bit wrap-around difference `a - b` on `guint64` values. -/
def sub64 (a b : Nat) : Nat := (a + 2 ^ 64 - b) % 2 ^ 64

/-- The all-ones `guint64`, the bit pattern of `(guint64) -1` /
`GST_CLOCK_TIME_NONE`. -/
def u64neg1 : Nat := 2 ^ 64 - 1

/-- Truncating cast `guint64 -> gint` as performed by `(gint) value`
in `assign_value`. -/
def gintOfU64 (v : Nat) : Int :=
  let r : Nat := v % 2 ^ 32
  if r < 2 ^ 31 then (r : Int) else (r : Int) - 2 ^ 32

/-- `is_sync_frame`.  Modelled from the spec: the helper lives in
`gstmultihandlesink.c`, which is not part of the sources; the spec's
glossary defines "Sync frame / keyframe" as "a buffer not marked
delta". -/
def is_sync_frame (b : GstBuffer) : Bool := !b.isDelta

/-- Result triple of `find_limits`: the two out-parameters and the
returned boolean. -/
structure FLResult where
  min_idx : Int
  max_idx : Int
  satisfied : Bool
  deriving DecidableEq, Repr

/-- Mutable state of the `find_limits` scan loop, entering an
iteration: accumulated byte count, first valid timestamp seen,
remaining (undischarged) byte and time minimums, the `*min_idx`
out-parameter and the `max_hit` flag. -/
structure FLState where
  bytes : Nat
  first : Option Nat
  bytesMin : Int
  timeMin : Option Nat
  minIdx : Int
  maxHit : Bool
  deriving DecidableEq, Repr

/-- The fix-ups after the `find_limits` loop: an unset `*max_idx`
becomes `len - 1`, an unset `*min_idx` becomes `*max_idx`. -/
def flFinish (len : Nat) (minIdx maxIdx : Int) (sat : Bool) : FLResult :=
  let maxIdx' := if maxIdx = -1 then (len : Int) - 1 else maxIdx
  let minIdx' := if minIdx = -1 then maxIdx' else minIdx
  ⟨minIdx', maxIdx', sat⟩

/-- Processing of one buffer by the `find_limits` loop body:
accumulate its bytes, capture/compare timestamps, discharge satisfied
minimums and raise `max_hit`. -/
def flStep (bytesMax : Int) (timeMax : Option Nat) (b : GstBuffer)
    (st : FLState) : FLState :=
  let bytes := st.bytes + b.size
  let tstep : Option Nat × Option Nat × Bool :=
    match b.timestamp with
    | Option.some t =>
      let f := st.first.getD t
      let tm :=
        match st.timeMin with
        | Option.some m => if sub64 f t ≥ m then Option.none else Option.some m
        | Option.none => Option.none
      let mh :=
        match timeMax with
        | Option.some m => decide (sub64 f t ≥ m)
        | Option.none => false
      (Option.some f, tm, mh)
    | Option.none => (st.first, st.timeMin, false)
  let bytesMin :=
    if st.bytesMin ≠ -1 ∧ (bytes : Int) ≥ st.bytesMin then -1 else st.bytesMin
  let maxHit :=
    tstep.2.2 || (bytesMax ≠ -1 ∧ (bytes : Int) ≥ bytesMax : Bool)
  ⟨bytes, tstep.1, bytesMin, tstep.2.1, st.minIdx, maxHit⟩

/-- The do-while scan of `find_limits`, one recursive call per
executed iteration; `rest` is the part of the queue from index `i`
on.  The checks at the top of the body (record `*min_idx` once all
minimums are discharged; break out once `max_hit` was set by an
earlier iteration) run only when an iteration actually starts, which
is why a maximum first exceeded while processing the last buffer is
never turned into a break. -/
def flLoop (bytesMax : Int) (timeMax : Option Nat) (len : Nat) :
    List GstBuffer → Nat → FLState → FLResult
  | [], _, st => flFinish len st.minIdx (-1) false
  | b :: rest, i, st =>
    let st :=
      if st.bytesMin = -1 ∧ st.timeMin = Option.none ∧ st.minIdx = -1 then
        { st with minIdx := max ((i : Int) - 1) 0 }
      else st
    if st.maxHit then
      flFinish len st.minIdx ((i : Int) - 1) (st.minIdx ≠ -1)
    else
      flLoop bytesMax timeMax len rest (i + 1) (flStep bytesMax timeMax b st)

/-- `find_limits`: find the positions in the buffer queue where the
`*_min` and `*_max` limits are satisfied.  `-1` (`none` for the time
limits) means "any".  `buffers_max` is accepted but, as in the source,
never read. -/
def find_limits (q : List GstBuffer) (bytes_min buffers_min : Int)
    (time_min : Option Nat) (bytes_max buffers_max : Int)
    (time_max : Option Nat) : FLResult :=
  let len := q.length
  if buffers_min ≠ -1 ∧ (len : Int) < buffers_min then
    ⟨(len : Int) - 1, (len : Int) - 1, false⟩
  else
    flLoop bytes_max time_max len q 0 ⟨0, Option.none, bytes_min, time_min, -1, false⟩

/-- Signed 64-bit reinterpretation of a `guint64` value, for
`gint64 diff = first - ts` in the time branch of `get_buffers_max`. -/
def int64OfU64 (v : Nat) : Int :=
  if v % 2 ^ 64 < 2 ^ 63 then ((v % 2 ^ 64 : Nat) : Int)
  else ((v % 2 ^ 64 : Nat) : Int) - 2 ^ 64

/-- The scan of the time branch of `get_buffers_max`: return `i + 1`
for the first buffer whose (signed) distance from the first valid
timestamp exceeds `max`, else `len + 1`. -/
def gbmTimeScan (max : Int) (len : Nat) :
    List GstBuffer → Nat → Option Nat → Int
  | [], _, _ => (len : Int) + 1
  | b :: rest, i, first =>
    match b.timestamp with
    | Option.some t =>
      let f := first.getD t
      if int64OfU64 (sub64 f t) > max then (i : Int) + 1
      else gbmTimeScan max len rest (i + 1) (Option.some f)
    | Option.none => gbmTimeScan max len rest (i + 1) first

/-- The scan of the bytes branch of `get_buffers_max`: return `i + 1`
for the first prefix whose accumulated size exceeds `max`, else
`len + 1`. -/
def gbmBytesScan (max : Int) (len : Nat) :
    List GstBuffer → Nat → Nat → Int
  | [], _, _ => (len : Int) + 1
  | b :: rest, i, acc =>
    let acc := acc + b.size
    if (acc : Int) > max then (i : Int) + 1
    else gbmBytesScan max len rest (i + 1) acc

/-- `get_buffers_max`: number of buffers from the queue needed to
satisfy `max` in the configured units (the spec calls this
`count_to_max`).  For non-buffer units, `len + 1` when the queue
cannot satisfy the limit. -/
def get_buffers_max (q : List GstBuffer) (unit : GstTCPUnitType) (max : Int) : Int :=
  match unit with
  | GstTCPUnitType.buffers => max
  | GstTCPUnitType.time => gbmTimeScan max q.length q 0 Option.none
  | GstTCPUnitType.bytes => gbmBytesScan max q.length q 0 0
  | GstTCPUnitType.undefined => max

/-- The `while (newbufpos >= 0)` scan of the `RESYNC_KEYFRAME` branch
of `gst_multi_fd_sink_recover_client`: walk from index `n` down to 0
and return the first index holding a sync frame, `-1` if none. -/
def syncScanDown (q : List GstBuffer) : Nat → Int
  | 0 =>
    match q.get? 0 with
    | Option.some b => if is_sync_frame b then 0 else -1
    | Option.none => -1
  | n + 1 =>
    match q.get? (n + 1) with
    | Option.some b => if is_sync_frame b then (n : Int) + 1 else syncScanDown q n
    | Option.none => syncScanDown q n

/-- `gst_multi_fd_sink_recover_client`: calculate (without applying)
the new position for a lagging client. -/
def gst_multi_fd_sink_recover_client (q : List GstBuffer)
    (unitType : GstTCPUnitType) (units_soft_max : Int)
    (policy : GstRecoverPolicy) (bufpos : Int) : Int :=
  match policy with
  | GstRecoverPolicy.none => bufpos
  | GstRecoverPolicy.resyncLatest => -1
  | GstRecoverPolicy.resyncSoftLimit => get_buffers_max q unitType units_soft_max
  | GstRecoverPolicy.resyncKeyframe =>
    let start := min ((q.length : Int) - 1) (get_buffers_max q unitType units_soft_max - 1)
    if start < 0 then -1 else syncScanDown q start.toNat

/-- Caps fingerprint: an equality-comparable token plus the optional
`streamheader` field (the ordered buffer array the caps carry). -/
structure Caps where
  fingerprint : Nat
  streamheader : Option (List GstBuffer)
  deriving DecidableEq, Repr

/-- Per-client state, `GstTCPClient` plus the `GstMultiHandleClient`
fields the fan-out engine uses. -/
structure GstTCPClient where
  fd : Int
  status : GstClientStatus
  bufpos : Int
  bufoffset : Nat
  sending : List GstBuffer
  flushcount : Int
  newConnection : Bool
  discont : Bool
  droppedBuffers : Int
  lastActivityTime : Nat
  syncMethod : GstSyncMethod
  burstMinUnit : GstTCPUnitType
  burstMinValue : Nat
  burstMaxUnit : GstTCPUnitType
  burstMaxValue : Nat
  caps : Option Caps
  firstBufferTs : Option Nat
  lastBufferTs : Option Nat
  bytesSent : Nat
  isSocket : Bool
  deriving DecidableEq, Repr

/-- `assign_value`: route a unit/value pair into the matching limit
slot, casting the `guint64` value to `gint` for bytes/buffers and
keeping it as a clock time (with the all-ones pattern meaning
"none") for time. -/
def assign_value (unit : GstTCPUnitType) (value : Nat)
    (bytes buffers : Int) (time : Option Nat) : Int × Int × Option Nat :=
  match unit with
  | GstTCPUnitType.buffers => (bytes, gintOfU64 value, time)
  | GstTCPUnitType.time =>
    (bytes, buffers, if value % 2 ^ 64 = u64neg1 then Option.none else Option.some (value % 2 ^ 64))
  | GstTCPUnitType.bytes => (gintOfU64 value, buffers, time)
  | GstTCPUnitType.undefined => (bytes, buffers, time)

/-- `count_burst_unit`: translate the client's burst min/max unit and
value pairs into `find_limits` arguments and run it. -/
def count_burst_unit (q : List GstBuffer) (min_unit : GstTCPUnitType)
    (min_value : Nat) (max_unit : GstTCPUnitType) (max_value : Nat) : FLResult :=
  let mins := assign_value min_unit min_value (-1) (-1) Option.none
  let maxs := assign_value max_unit max_value (-1) (-1) Option.none
  find_limits q mins.1 mins.2.1 mins.2.2 maxs.1 maxs.2.1 maxs.2.2

/-- The forward scan used by `find_next_syncframe`.  Modelled from the
spec: the helper lives in `gstmultihandlesink.c`, which is not part of
the sources; per the spec it finds the nearest sync frame at index
`≥ i`, scanning newest→oldest (increasing index), `-1` if none. -/
def syncScanUp (q : List GstBuffer) (i : Nat) : Int :=
  match q.drop i |>.findIdx? (fun b => is_sync_frame b) with
  | Option.some j => (i : Int) + (j : Int)
  | Option.none => -1

/-- `find_next_syncframe`: nearest sync frame at index `≥ idx`.
Modelled from the spec (source in `gstmultihandlesink.c`, absent). -/
def find_next_syncframe (q : List GstBuffer) (idx : Int) : Int :=
  if idx < 0 then -1 else syncScanUp q idx.toNat

/-- `find_prev_syncframe`: nearest sync frame at index `≤ idx`,
scanning from `idx` toward index 0.  Modelled from the spec (source in
`gstmultihandlesink.c`, absent). -/
def find_prev_syncframe (q : List GstBuffer) (idx : Int) : Int :=
  if idx < 0 then -1 else syncScanDown q idx.toNat

/-- `gst_multi_fd_sink_new_client`: decide where in the current queue
a newly connected client starts.  Returns the chosen index (or `-1`
for "wait") together with the possibly mutated client (the waiting
branches reset `bufpos` and may downgrade the sync method). -/
def gst_multi_fd_sink_new_client (q : List GstBuffer) (client : GstTCPClient) :
    Int × GstTCPClient :=
  match client.syncMethod with
  | GstSyncMethod.latest => (client.bufpos, client)
  | GstSyncMethod.nextKeyframe =>
    let result := find_prev_syncframe q client.bufpos
    if result ≠ -1 then (result, client)
    else (result, { client with bufpos := -1 })
  | GstSyncMethod.latestKeyframe =>
    let result := find_next_syncframe q 0
    if result ≠ -1 then (result, client)
    else (result, { client with bufpos := -1, syncMethod := GstSyncMethod.nextKeyframe })
  | GstSyncMethod.burst =>
    let r := count_burst_unit q client.burstMinUnit client.burstMinValue
        client.burstMaxUnit client.burstMaxValue
    if r.max_idx ≠ -1 ∧ r.max_idx ≤ r.min_idx then (max (r.max_idx - 1) 0, client)
    else (r.min_idx, client)
  | GstSyncMethod.burstKeyframe =>
    let r := count_burst_unit q client.burstMinUnit client.burstMinValue
        client.burstMaxUnit client.burstMaxValue
    let next := find_next_syncframe q r.min_idx
    if next ≠ -1 ∧ next < r.max_idx then (next, client)
    else
      let prev := find_prev_syncframe q r.min_idx
      if prev ≠ -1 then (prev, client)
      else (-1, { client with bufpos := -1, syncMethod := GstSyncMethod.nextKeyframe })
  | GstSyncMethod.burstWithKeyframe =>
    let r := count_burst_unit q client.burstMinUnit client.burstMinValue
        client.burstMaxUnit client.burstMaxValue
    let next := find_next_syncframe q r.min_idx
    if next ≠ -1 ∧ next < r.max_idx then (next, client)
    else if r.max_idx ≠ -1 ∧ r.max_idx ≤ r.min_idx then (max (r.max_idx - 1) 0, client)
    else (r.min_idx, client)

/-- Notifications emitted to the host. -/
inductive SinkAction
  | clientAdded (fd : Int)
  | clientRemoved (fd : Int) (status : GstClientStatus)
  | clientFdRemoved (fd : Int)
  deriving DecidableEq, Repr

/-- `gst_multi_handle_sink_client_init` defaults.  Modelled from the
spec: the initializer lives in `gstmultihandlesink.c`, absent from the
sources; per the spec a fresh client has status OK, `bufpos = -1`,
`flushcount = -1` and the new-connection flag set. -/
def clientInit (fd : Int) (syncMethod : GstSyncMethod) (minUnit : GstTCPUnitType)
    (minValue : Nat) (maxUnit : GstTCPUnitType) (maxValue : Nat) : GstTCPClient :=
  { fd := fd, status := GstClientStatus.ok, bufpos := -1, bufoffset := 0,
    sending := [], flushcount := -1, newConnection := true, discont := false,
    droppedBuffers := 0, lastActivityTime := 0, syncMethod := syncMethod,
    burstMinUnit := minUnit, burstMinValue := minValue,
    burstMaxUnit := maxUnit, burstMaxValue := maxValue,
    caps := Option.none, firstBufferTs := Option.none,
    lastBufferTs := Option.none, bytesSent := 0, isSocket := false }

/-- `gst_multi_fd_sink_add_full`: register a new client.  Returns the
updated client list (index 0 is the `g_list_prepend` head) and the
notifications emitted.  The wrong-limits check precedes the duplicate
check; a duplicate descriptor leaves the table untouched and emits a
single client-removed notification carrying status Duplicate (the file
descriptor itself is never touched: the model has no close action at
all). -/
def gst_multi_fd_sink_add_full (clients : List GstTCPClient) (fd : Int)
    (sync_method : GstSyncMethod) (min_unit : GstTCPUnitType) (min_value : Nat)
    (max_unit : GstTCPUnitType) (max_value : Nat) :
    List GstTCPClient × List SinkAction :=
  if min_unit = max_unit ∧ max_value % 2 ^ 64 ≠ u64neg1 ∧
      min_value % 2 ^ 64 ≠ u64neg1 ∧ max_value % 2 ^ 64 < min_value % 2 ^ 64 then
    (clients, [])
  else
    let client := clientInit fd sync_method min_unit min_value max_unit max_value
    if clients.any (fun c => c.fd = fd) then
      (clients, [SinkAction.clientRemoved fd GstClientStatus.duplicate])
    else
      (client :: clients, [SinkAction.clientAdded fd])

/-- `gst_multi_fd_sink_remove_flush`: look the descriptor up; when the
client is still OK, arm `flushcount = bufpos + 1` and mark it
Flushing; a client already disconnecting (status ≠ OK) is left
untouched, as is an unknown descriptor. -/
def gst_multi_fd_sink_remove_flush (clients : List GstTCPClient) (fd : Int) :
    List GstTCPClient :=
  clients.map fun c =>
    if c.fd = fd then
      if c.status ≠ GstClientStatus.ok then c
      else { c with flushcount := c.bufpos + 1, status := GstClientStatus.flushing }
    else c

/-- Outcome of `gst_multi_fd_sink_handle_client_read` on the model:
either the drain finished (`ret = TRUE`), or the function returned
FALSE (client to be removed with the recorded status), or the supplied
trace of `read` results ran out while `avail` was still positive (the
C loop would keep calling `read`). -/
inductive ReadOutcome
  | ok (c : GstTCPClient)
  | fail (c : GstTCPClient)
  | outOfReads (c : GstTCPClient) (avail : Int)
  deriving DecidableEq, Repr

/-- The `do { read } while (avail > 0)` drain of `handle_client_read`:
one trace entry per `read` call.  Only `nread < -1` (impossible for
`read(2)`) and `nread == 0` are treated as errors; any other value,
including `-1`, is subtracted from `avail`. -/
def readDrain (c : GstTCPClient) : Int → List Int → ReadOutcome
  | avail, [] => ReadOutcome.outOfReads c avail
  | avail, nread :: rest =>
    if nread < -1 then ReadOutcome.fail { c with status := GstClientStatus.error }
    else if nread = 0 then ReadOutcome.fail { c with status := GstClientStatus.error }
    else
      let avail' := avail - nread
      if avail' > 0 then readDrain c avail' rest else ReadOutcome.ok c

/-- `gst_multi_fd_sink_handle_client_read`: `ioctl(FIONREAD)` result
(`none` = the ioctl failed), then close-detection and the discard
drain fed by a trace of `read` return values. -/
def gst_multi_fd_sink_handle_client_read (c : GstTCPClient)
    (avail : Option Int) (reads : List Int) : ReadOutcome :=
  match avail with
  | Option.none => ReadOutcome.fail { c with status := GstClientStatus.error }
  | Option.some avail =>
    if avail = 0 then ReadOutcome.fail { c with status := GstClientStatus.closed }
    else if avail < 0 then ReadOutcome.fail { c with status := GstClientStatus.error }
    else readDrain c avail reads

/-- `gst_multi_fd_sink_client_queue_buffer`: the stream-header gate
followed by appending the data buffer to the client's `sending` list.
`currentCaps` stands for `gst_pad_get_current_caps`. -/
def gst_multi_fd_sink_client_queue_buffer (currentCaps : Caps)
    (resendStreamheader : Bool) (c : GstTCPClient) (buffer : GstBuffer) :
    GstTCPClient :=
  let send_streamheader :=
    match c.caps with
    | Option.none => true
    | Option.some old =>
      if currentCaps ≠ old then
        match currentCaps.streamheader with
        | Option.none => false
        | Option.some shNew =>
          match old.streamheader with
          | Option.none => true
          | Option.some shOld =>
            if ¬resendStreamheader then false
            else decide (shOld ≠ shNew)
      else false
  let headerPart : List GstBuffer :=
    if send_streamheader then
      match currentCaps.streamheader with
      | Option.some sh => sh
      | Option.none => []
    else []
  { c with
    caps := Option.some currentCaps,
    sending := (c.sending ++ headerPart) ++ [buffer] }

/-- A `send`/`write` call's outcome, as seen by `handle_client_write`. -/
inductive WriteResult
  | wrote (n : Nat) | eagain | econnreset | otherError
  deriving DecidableEq, Repr

/-- Outcome of one iteration of the `handle_client_write` do-while:
`next` keeps looping (`more` still TRUE), `yield` stops and keeps the
client (`return TRUE` / `more = FALSE`), `removeClient` is `return
FALSE` with the terminal status set, after which the caller removes
the client. -/
inductive StepOutcome
  | next (c : GstTCPClient)
  | yield (c : GstTCPClient)
  | removeClient (c : GstTCPClient)
  deriving DecidableEq, Repr

/-- The send half of a `handle_client_write` iteration: write the head
of `sending` from `bufoffset` on, handling EAGAIN, ECONNRESET, other
errors, partial and complete writes. -/
def sendStep (now : Nat) (c : GstTCPClient) (wr : WriteResult) : StepOutcome :=
  match c.sending with
  | [] => StepOutcome.next c
  | head :: restSending =>
    let maxsize := head.size - c.bufoffset
    match wr with
    | WriteResult.eagain => StepOutcome.yield c
    | WriteResult.econnreset =>
      StepOutcome.removeClient { c with status := GstClientStatus.closed }
    | WriteResult.otherError =>
      StepOutcome.removeClient { c with status := GstClientStatus.error }
    | WriteResult.wrote n =>
      if n < maxsize then
        StepOutcome.yield { c with
          bufoffset := c.bufoffset + n,
          bytesSent := c.bytesSent + n, lastActivityTime := now }
      else
        StepOutcome.next { c with
          sending := restSending, bufoffset := 0,
          bytesSent := c.bytesSent + n, lastActivityTime := now }

/-- One iteration of the `gst_multi_fd_sink_handle_client_write`
do-while loop: refill `sending` from the global queue when empty
(handling the waiting, new-connection, and flush-finished cases), then
perform the send.  `wr` is the outcome of the `send`/`write` call this
iteration would make. -/
def handleClientWriteStep (q : List GstBuffer) (currentCaps : Caps)
    (resendStreamheader : Bool) (now : Nat) (c : GstTCPClient)
    (wr : WriteResult) : StepOutcome :=
  let flushing := c.status = GstClientStatus.flushing
  if c.sending = [] then
    if c.bufpos = -1 then
      if c.flushcount = 0 then
        StepOutcome.removeClient { c with status := GstClientStatus.removed }
      else StepOutcome.yield c
    else
      let staged : GstTCPClient ⊕ GstTCPClient :=
        if c.newConnection ∧ ¬flushing then
          let r := gst_multi_fd_sink_new_client q c
          if r.1 ≥ 0 then Sum.inl { r.2 with newConnection := false, bufpos := r.1 }
          else Sum.inr r.2
        else Sum.inl c
      match staged with
      | Sum.inr c1 => StepOutcome.yield c1
      | Sum.inl c1 =>
        if c1.flushcount = 0 then
          StepOutcome.removeClient { c1 with status := GstClientStatus.removed }
        else
          let buf := q.getD c1.bufpos.toNat default
          let c2 := { c1 with
            bufpos := c1.bufpos - 1,
            firstBufferTs :=
              if c1.firstBufferTs = Option.none then buf.timestamp
              else c1.firstBufferTs,
            lastBufferTs :=
              match buf.timestamp with
              | Option.some t => Option.some t
              | Option.none => c1.lastBufferTs,
            flushcount :=
              if c1.flushcount ≠ -1 then c1.flushcount - 1 else c1.flushcount }
          let c2 := gst_multi_fd_sink_client_queue_buffer currentCaps
              resendStreamheader c2 buf
          let c2 := { c2 with bufoffset := 0 }
          sendStep now c2 wr
  else sendStep now c wr

/-- Element-wide configuration read by the producer path. -/
structure SinkConfig where
  unitType : GstTCPUnitType
  unitsMax : Int
  unitsSoftMax : Int
  recoverPolicy : GstRecoverPolicy
  timeout : Nat
  bytesMin : Int
  buffersMin : Int
  timeMin : Option Nat
  defSyncMethod : GstSyncMethod
  resendStreamheader : Bool
  deriving DecidableEq, Repr

/-- The shared state the clients lock protects: global queue, client
list, stream-header set and the render bookkeeping. -/
structure SinkState where
  bufqueue : List GstBuffer
  clients : List GstTCPClient
  streamheader : List GstBuffer
  previousBufferInCaps : Bool
  bytesToServe : Nat
  buffersQueued : Int
  deriving DecidableEq, Repr

/-- Per-client body of the position-update loop in
`gst_multi_fd_sink_queue_buffer`: advance `bufpos`, run the recover
policy past the soft max, evict Slow clients past the hard max or the
inactivity timeout (`none`: the client was removed from the list, its
status set to Slow and its `bufpos` to -1 on the way out). -/
def queueBufferClientUpdate (cfg : SinkConfig) (q : List GstBuffer)
    (maxBuffers softMaxBuffers : Int) (now : Nat) (c : GstTCPClient) :
    Option GstTCPClient :=
  let c := { c with bufpos := c.bufpos + 1 }
  let c :=
    if softMaxBuffers > 0 ∧ c.bufpos ≥ softMaxBuffers then
      let newpos := gst_multi_fd_sink_recover_client q cfg.unitType
          cfg.unitsSoftMax cfg.recoverPolicy c.bufpos
      if newpos ≠ c.bufpos then
        { c with
          droppedBuffers := c.droppedBuffers + (c.bufpos - newpos),
          bufpos := newpos, discont := true }
      else c
    else c
  if (maxBuffers > 0 ∧ c.bufpos ≥ maxBuffers) ∨
      (cfg.timeout > 0 ∧ now - c.lastActivityTime > cfg.timeout) then
    Option.none
  else Option.some c

/-- The `for (i = 0; i < limit; i++)` sync-point search that extends
`max_buffer_usage` under the keyframe default sync methods. -/
def firstSyncWithin (q : List GstBuffer) (limit : Int) : Option Nat :=
  (q.take limit.toNat).findIdx? (fun b => is_sync_frame b)

/-- The `max_buffer_usage` computation of `queue_buffer`: the running
maximum of the updated client positions, extended by the min-limits
index from `find_limits` and, under the keyframe default sync methods,
by the first sync point within `min(len, soft_max)`. -/
def queueBufferMaxUsage (cfg : SinkConfig) (q : List GstBuffer)
    (softMaxBuffers : Int) (clients : List GstTCPClient) : Int :=
  let mbu0 : Int := clients.foldl (fun m c => if c.bufpos > m then c.bufpos else m) 0
  let fl := find_limits q cfg.bytesMin cfg.buffersMin cfg.timeMin (-1) (-1) Option.none
  let mbu1 : Int := max mbu0 (fl.min_idx + 1)
  if cfg.defSyncMethod = GstSyncMethod.latestKeyframe ∨
      cfg.defSyncMethod = GstSyncMethod.burstKeyframe then
    let limit : Int :=
      if softMaxBuffers > 0 then min (q.length : Int) softMaxBuffers
      else (q.length : Int)
    match firstSyncWithin q limit with
    | Option.some i => max mbu1 (i : Int)
    | Option.none => mbu1
  else mbu1

/-- `gst_multi_fd_sink_queue_buffer`: prepend the buffer, update every
client (soft-max recovery, hard-max / timeout eviction), compute
`max_buffer_usage` from the surviving positions, the min-limits index
and (under keyframe default sync) the nearest sync point, and trim the
queue tail beyond it. -/
def gst_multi_fd_sink_queue_buffer (cfg : SinkConfig) (st : SinkState)
    (buf : GstBuffer) (now : Nat) : SinkState :=
  let q := buf :: st.bufqueue
  let maxBuffers :=
    if cfg.unitsMax > 0 then get_buffers_max q cfg.unitType cfg.unitsMax else -1
  let softMaxBuffers :=
    if cfg.unitsSoftMax > 0 then get_buffers_max q cfg.unitType cfg.unitsSoftMax else -1
  let clients :=
    st.clients.filterMap (queueBufferClientUpdate cfg q maxBuffers softMaxBuffers now)
  let mbu2 : Int := queueBufferMaxUsage cfg q softMaxBuffers clients
  { st with
    bufqueue := q.take (mbu2.toNat + 1), clients := clients,
    buffersQueued := mbu2 }

/-- `gst_multi_fd_sink_render`: a header buffer following a non-header
buffer clears the stream-header set, header buffers are appended to it
and never queued; data buffers go through `queue_buffer`. -/
def gst_multi_fd_sink_render (cfg : SinkConfig) (st : SinkState)
    (buf : GstBuffer) (now : Nat) : SinkState :=
  let in_caps := buf.isHeader
  let st :=
    if in_caps ∧ st.previousBufferInCaps = false then
      { st with streamheader := [] }
    else st
  let st := { st with previousBufferInCaps := in_caps }
  if in_caps then { st with streamheader := st.streamheader ++ [buf] }
  else
    let st := gst_multi_fd_sink_queue_buffer cfg st buf now
    { st with bytesToServe := st.bytesToServe + buf.size }

/-! ## Helper lemmas -/

/-- Retrieve the client carried by a write-step outcome. -/
def StepOutcome.client : StepOutcome → GstTCPClient
  | StepOutcome.next c => c
  | StepOutcome.yield c => c
  | StepOutcome.removeClient c => c

/-- A scan down from `n` over an all-delta prefix finds nothing. -/
theorem syncScanDown_all_delta (q : List GstBuffer) (n : Nat)
    (h : ∀ i, i ≤ n → ∀ b, q.get? i = Option.some b → b.isDelta = true) :
    syncScanDown q n = -1 := by
  induction n with
  | zero =>
    unfold syncScanDown
    cases hq : q.get? 0 with
    | none => rfl
    | some b => simp [is_sync_frame, h 0 (Nat.le_refl 0) b hq]
  | succ n ih =>
    unfold syncScanDown
    cases hq : q.get? (n + 1) with
    | none => exact ih fun i hi b hb => h i (Nat.le_succ_of_le hi) b hb
    | some b =>
      simp only [is_sync_frame, h (n + 1) (Nat.le_refl _) b hq]
      exact ih fun i hi b hb => h i (Nat.le_succ_of_le hi) b hb

/-! ## C4 -/

/-- C4: for every non-empty queue, calling `find_limits` with
`buffers_min ≠ -1` and `buffers_min > len` returns
`(len - 1, len - 1, false)` immediately; the result depends only on
the queue's length, so no bytes or timestamps are scanned. -/
theorem C4_find_limits_buffers_min_precheck
    (q : List GstBuffer) (bytes_min buffers_min : Int) (time_min : Option Nat)
    (bytes_max buffers_max : Int) (time_max : Option Nat)
    (hlen : 0 < q.length) (hb : buffers_min ≠ -1)
    (hgt : (q.length : Int) < buffers_min) :
    find_limits q bytes_min buffers_min time_min bytes_max buffers_max time_max =
      ⟨(q.length : Int) - 1, (q.length : Int) - 1, false⟩ := by
  unfold find_limits
  exact if_pos ⟨hb, hgt⟩

/-- Witness for C4 at a concrete queue of three one-byte buffers and
`buffers_min = 5`. -/
theorem C4_find_limits_buffers_min_precheck_witness :
    find_limits (List.replicate 3 ⟨1, Option.none, true, false⟩) 0 5 Option.none 0 0
        Option.none = ⟨2, 2, false⟩ :=
  C4_find_limits_buffers_min_precheck _ 0 5 Option.none 0 0 Option.none
    (by decide) (by decide) (by decide)

/-! ## C9 -/

/-- C9: a header buffer arriving after a non-header buffer first drops
the old stream-header set and is then appended to it (leaving exactly
that buffer), and is never queued on the global data queue; a header
buffer following another header buffer is appended without clearing. -/
theorem C9_render_header_buffers (cfg : SinkConfig) (st : SinkState)
    (buf : GstBuffer) (now : Nat) (hh : buf.isHeader = true) :
    (st.previousBufferInCaps = false →
      (gst_multi_fd_sink_render cfg st buf now).streamheader = [buf] ∧
      (gst_multi_fd_sink_render cfg st buf now).bufqueue = st.bufqueue) ∧
    (st.previousBufferInCaps = true →
      (gst_multi_fd_sink_render cfg st buf now).streamheader =
        st.streamheader ++ [buf] ∧
      (gst_multi_fd_sink_render cfg st buf now).bufqueue = st.bufqueue) := by
  constructor
  · intro hp
    unfold gst_multi_fd_sink_render
    simp [hh, hp]
  · intro hp
    unfold gst_multi_fd_sink_render
    simp [hh, hp]

/-- Witness for C9: a concrete header buffer after a data buffer, and
after another header buffer. -/
theorem C9_render_header_buffers_witness :
    ((gst_multi_fd_sink_render
        ⟨GstTCPUnitType.buffers, -1, -1, GstRecoverPolicy.none, 0, -1, -1,
          Option.none, GstSyncMethod.latest, false⟩
        ⟨[⟨7, Option.none, true, false⟩], [], [⟨9, Option.none, false, true⟩], false, 0, 0⟩
        ⟨4, Option.none, false, true⟩ 0).streamheader = [⟨4, Option.none, false, true⟩] ∧
      (gst_multi_fd_sink_render
        ⟨GstTCPUnitType.buffers, -1, -1, GstRecoverPolicy.none, 0, -1, -1,
          Option.none, GstSyncMethod.latest, false⟩
        ⟨[⟨7, Option.none, true, false⟩], [], [⟨9, Option.none, false, true⟩], false, 0, 0⟩
        ⟨4, Option.none, false, true⟩ 0).bufqueue = [⟨7, Option.none, true, false⟩]) :=
  (C9_render_header_buffers _ _ _ 0 rfl).1 rfl

/-! ## C10 -/

/-- C10: `remove_flush` on a descriptor whose client is no longer OK
(already Flushing, Removed, Closed, ...) is a no-op: the client list,
and in particular that client's `flushcount` and status, are
unchanged. -/
theorem C10_remove_flush_noop_when_not_ok (clients : List GstTCPClient) (fd : Int)
    (h : ∀ c ∈ clients, c.fd = fd → c.status ≠ GstClientStatus.ok) :
    gst_multi_fd_sink_remove_flush clients fd = clients := by
  unfold gst_multi_fd_sink_remove_flush
  induction clients with
  | nil => rfl
  | cons c rest ih =>
    simp only [List.map_cons, List.cons.injEq]
    refine ⟨?_, ih fun c hc hfd => h c (List.mem_cons_of_mem _ hc) hfd⟩
    by_cases hfd : c.fd = fd
    · simp [hfd, h c (List.mem_cons_self _ _) hfd]
    · simp [hfd]

/-- Witness for C10: a Flushing client keeps its state. -/
theorem C10_remove_flush_noop_when_not_ok_witness :
    gst_multi_fd_sink_remove_flush
      [{ clientInit 7 GstSyncMethod.latest GstTCPUnitType.undefined 0
          GstTCPUnitType.undefined 0 with
          status := GstClientStatus.flushing, bufpos := 3 }] 7 =
    [{ clientInit 7 GstSyncMethod.latest GstTCPUnitType.undefined 0
        GstTCPUnitType.undefined 0 with
        status := GstClientStatus.flushing, bufpos := 3 }] :=
  C10_remove_flush_noop_when_not_ok _ 7 (by decide)

/-! ## C3 -/

/-- C3: evaluation of `handle_client_read` at the decisive inputs.
When `FIONREAD` reports 0 the client is Closed and removed, and a
short read of 0 inside the drain yields Error — as the claim states.
But a `read` returning -1 (the only way `read(2)` reports an error) is
caught by neither `nread < -1` nor `nread == 0`: it is subtracted from
`avail`, leaving the drain loop running with `avail` grown from 5 to
6 and the status untouched, instead of setting Error and removing the
client. -/
theorem C3_handle_client_read_eval :
    (gst_multi_fd_sink_handle_client_read
        (clientInit 3 GstSyncMethod.latest GstTCPUnitType.undefined 0
          GstTCPUnitType.undefined 0) (Option.some 0) [] =
      ReadOutcome.fail { clientInit 3 GstSyncMethod.latest GstTCPUnitType.undefined 0
          GstTCPUnitType.undefined 0 with status := GstClientStatus.closed }) ∧
    (gst_multi_fd_sink_handle_client_read
        (clientInit 3 GstSyncMethod.latest GstTCPUnitType.undefined 0
          GstTCPUnitType.undefined 0) (Option.some 5) [0] =
      ReadOutcome.fail { clientInit 3 GstSyncMethod.latest GstTCPUnitType.undefined 0
          GstTCPUnitType.undefined 0 with status := GstClientStatus.error }) ∧
    (gst_multi_fd_sink_handle_client_read
        (clientInit 3 GstSyncMethod.latest GstTCPUnitType.undefined 0
          GstTCPUnitType.undefined 0) (Option.some 5) [-1] =
      ReadOutcome.outOfReads (clientInit 3 GstSyncMethod.latest
          GstTCPUnitType.undefined 0 GstTCPUnitType.undefined 0) 6) := by
  refine ⟨rfl, rfl, ?_⟩
  unfold gst_multi_fd_sink_handle_client_read
  norm_num [readDrain]

/-! ## C1 -/

/-- C1 counterexample: 11 delta-only buffers, `unit_type = Buffers`,
`units_soft_max = 5`, policy ResyncKeyframe, client at `bufpos = 6`.
The keyframe scan from `min(len-1, soft_max-1) = 4` finds nothing and
runs off the front, returning -1 — not the SoftLimit position
`count_to_max(units_soft_max) = 5` the claim predicts. -/
theorem C1_counterexample :
    gst_multi_fd_sink_recover_client
        (List.replicate 11 ⟨100, Option.none, true, false⟩)
        GstTCPUnitType.buffers 5 GstRecoverPolicy.resyncKeyframe 6 = -1 ∧
    get_buffers_max (List.replicate 11 ⟨100, Option.none, true, false⟩)
        GstTCPUnitType.buffers 5 = 5 ∧
    (-1 : Int) ≠ 5 := by decide

/-- C1 (amended): for every queue with no non-delta buffer at any
index up to `min(len-1, soft_max-1)`, the ResyncKeyframe recover
policy returns -1 — the lagging client is thrown back to the waiting
state (as under ResyncLatest), not to the SoftLimit position. -/
theorem C1_resync_keyframe_delta_only (q : List GstBuffer)
    (unitType : GstTCPUnitType) (softMax bufpos : Int)
    (h : ∀ i, i < q.length →
      (i : Int) ≤ min ((q.length : Int) - 1)
        (get_buffers_max q unitType softMax - 1) →
      (q.getD i default).isDelta = true) :
    gst_multi_fd_sink_recover_client q unitType softMax
      GstRecoverPolicy.resyncKeyframe bufpos = -1 := by
  unfold gst_multi_fd_sink_recover_client
  by_cases hs : min ((q.length : Int) - 1)
      (get_buffers_max q unitType softMax - 1) < 0
  · simp [hs]
  · simp only [hs, if_false]
    apply syncScanDown_all_delta
    intro i hi b hb
    have hlen : i < q.length := by
      by_contra hge
      rw [List.get?_eq_none.mpr (Nat.le_of_not_lt hge)] at hb
      exact Option.noConfusion hb
    have hbd : q.getD i default = b := by
      rw [List.getD_eq_get?, hb]; rfl
    have hbound : (i : Int) ≤ min ((q.length : Int) - 1)
        (get_buffers_max q unitType softMax - 1) := by
      calc (i : Int) ≤ ((min ((q.length : Int) - 1)
            (get_buffers_max q unitType softMax - 1)).toNat : Int) :=
              Int.ofNat_le.mpr hi
        _ = _ := Int.toNat_of_nonneg (Int.not_lt.mp hs)
    rw [← hbd]
    exact h i hlen hbound

/-- Witness for the amended C1 at a concrete three-buffer delta-only
queue with `units_soft_max = 5` in Buffers. -/
theorem C1_resync_keyframe_delta_only_witness :
    gst_multi_fd_sink_recover_client
      (List.replicate 3 ⟨100, Option.none, true, false⟩)
      GstTCPUnitType.buffers 5 GstRecoverPolicy.resyncKeyframe 2 = -1 :=
  C1_resync_keyframe_delta_only _ GstTCPUnitType.buffers 5 2 (by decide)

/-! ## C8 -/

/-- C8 counterexample: the wrong-limits precheck runs before the
duplicate check.  Adding descriptor 5 — already present — with
`min_unit = max_unit = Bytes` and `max_value = 5 < 10 = min_value`
returns with no notification at all: no client-removed with status
Duplicate is emitted, contradicting the claim's "for every call with
a descriptor already present". -/
theorem C8_counterexample :
    ((List.any [clientInit 5 GstSyncMethod.latest GstTCPUnitType.undefined 0
        GstTCPUnitType.undefined 0] fun c => c.fd = 5) = true) ∧
    (gst_multi_fd_sink_add_full
        [clientInit 5 GstSyncMethod.latest GstTCPUnitType.undefined 0
          GstTCPUnitType.undefined 0]
        5 GstSyncMethod.latest GstTCPUnitType.bytes 10 GstTCPUnitType.bytes 5).2 = [] ∧
    ([] : List SinkAction) ≠ [SinkAction.clientRemoved 5 GstClientStatus.duplicate] := by
  decide

/-- C8 (amended): provided the burst-limits precheck passes (different
units, or one of the values is `(guint64) -1`, or `max ≥ min`), adding
a descriptor already present leaves the client list — and so the
existing client — entirely unchanged, and emits exactly one
client-removed notification with status Duplicate; no descriptor is
ever closed (the model's action type has no close). -/
theorem C8_add_full_duplicate (clients : List GstTCPClient) (fd : Int)
    (sync : GstSyncMethod) (mu : GstTCPUnitType) (minv : Nat)
    (xu : GstTCPUnitType) (maxv : Nat)
    (hlim : ¬(mu = xu ∧ maxv % 2 ^ 64 ≠ u64neg1 ∧ minv % 2 ^ 64 ≠ u64neg1 ∧
        maxv % 2 ^ 64 < minv % 2 ^ 64))
    (hdup : (clients.any fun c => c.fd = fd) = true) :
    gst_multi_fd_sink_add_full clients fd sync mu minv xu maxv =
      (clients, [SinkAction.clientRemoved fd GstClientStatus.duplicate]) := by
  unfold gst_multi_fd_sink_add_full
  rw [if_neg hlim, if_pos hdup]

/-- Witness for the amended C8: duplicate descriptor 5 with valid
default limits. -/
theorem C8_add_full_duplicate_witness :
    gst_multi_fd_sink_add_full
      [clientInit 5 GstSyncMethod.latest GstTCPUnitType.undefined 0
        GstTCPUnitType.undefined 0]
      5 GstSyncMethod.latest GstTCPUnitType.undefined 0 GstTCPUnitType.undefined 0 =
    ([clientInit 5 GstSyncMethod.latest GstTCPUnitType.undefined 0
        GstTCPUnitType.undefined 0],
      [SinkAction.clientRemoved 5 GstClientStatus.duplicate]) :=
  C8_add_full_duplicate _ 5 GstSyncMethod.latest GstTCPUnitType.undefined 0
    GstTCPUnitType.undefined 0 (by decide) (by decide)

/-! ## Bounds of the find_limits out-parameters -/

/-- The post-loop fix-ups keep in-range or unset indices in range. -/
theorem flFinish_bounds (len : Nat) (minIdx maxIdx : Int) (sat : Bool)
    (hlen : 0 < len)
    (hmin : minIdx = -1 ∨ (0 ≤ minIdx ∧ minIdx < (len : Int)))
    (hmax : maxIdx = -1 ∨ (0 ≤ maxIdx ∧ maxIdx < (len : Int))) :
    (0 ≤ (flFinish len minIdx maxIdx sat).min_idx ∧
      (flFinish len minIdx maxIdx sat).min_idx < (len : Int)) ∧
    (0 ≤ (flFinish len minIdx maxIdx sat).max_idx ∧
      (flFinish len minIdx maxIdx sat).max_idx < (len : Int)) := by
  have h1 : (1 : Int) ≤ (len : Int) := by exact_mod_cast hlen
  unfold flFinish
  dsimp only
  split_ifs <;> omega

/-- `flStep` never touches the recorded `*min_idx`. -/
theorem flStep_minIdx (bytesMax : Int) (timeMax : Option Nat) (b : GstBuffer)
    (st : FLState) : (flStep bytesMax timeMax b st).minIdx = st.minIdx := rfl

/-- Both indices produced by the `find_limits` loop stay inside
`[0, len)`. -/
theorem flLoop_bounds (bytesMax : Int) (timeMax : Option Nat) (len : Nat) :
    ∀ (rest : List GstBuffer) (i : Nat) (st : FLState),
      i + rest.length = len → 0 < len →
      (st.minIdx = -1 ∨ (0 ≤ st.minIdx ∧ st.minIdx < (len : Int))) →
      (st.maxHit = true → 1 ≤ i) →
      (0 ≤ (flLoop bytesMax timeMax len rest i st).min_idx ∧
        (flLoop bytesMax timeMax len rest i st).min_idx < (len : Int)) ∧
      (0 ≤ (flLoop bytesMax timeMax len rest i st).max_idx ∧
        (flLoop bytesMax timeMax len rest i st).max_idx < (len : Int)) := by
  intro rest
  induction rest with
  | nil =>
    intro i st hilen hlen hmin _
    simp only [flLoop]
    exact flFinish_bounds len st.minIdx (-1) false hlen hmin (Or.inl rfl)
  | cons b rest ih =>
    intro i st hilen hlen hmin hmax
    have hil : i + 1 + rest.length = len := by
      simp only [List.length_cons] at hilen; omega
    have hiltlen : i < len := by omega
    have hi' : (i : Int) < (len : Int) := by exact_mod_cast hiltlen
    have h1 : (1 : Int) ≤ (len : Int) := by exact_mod_cast hlen
    simp only [flLoop]
    by_cases hc : st.bytesMin = -1 ∧ st.timeMin = Option.none ∧ st.minIdx = -1
    · simp only [if_pos hc]
      by_cases hh : st.maxHit = true
      · rw [if_pos hh]
        have hi1' : (1 : Int) ≤ (i : Int) := by exact_mod_cast hmax hh
        refine flFinish_bounds len _ _ _ hlen (Or.inr ⟨le_max_right _ _, ?_⟩)
          (Or.inr ⟨by omega, by omega⟩)
        rw [max_lt_iff]; omega
      · rw [if_neg hh]
        refine ih (i + 1) _ hil hlen ?_ (fun _ => by omega)
        rw [flStep_minIdx]
        dsimp only
        refine Or.inr ⟨le_max_right _ _, ?_⟩
        rw [max_lt_iff]; omega
    · simp only [if_neg hc]
      by_cases hh : st.maxHit = true
      · rw [if_pos hh]
        have hi1' : (1 : Int) ≤ (i : Int) := by exact_mod_cast hmax hh
        exact flFinish_bounds len _ _ _ hlen hmin (Or.inr ⟨by omega, by omega⟩)
      · rw [if_neg hh]
        exact ih (i + 1) _ hil hlen hmin (fun _ => by omega)

/-- The `find_limits` out-parameters land in `[0, len)` whenever the
queue is non-empty (the source asserts `len > 0`). -/
theorem find_limits_bounds (q : List GstBuffer) (bytes_min buffers_min : Int)
    (time_min : Option Nat) (bytes_max buffers_max : Int) (time_max : Option Nat)
    (hq : 0 < q.length) :
    (0 ≤ (find_limits q bytes_min buffers_min time_min bytes_max buffers_max
          time_max).min_idx ∧
      (find_limits q bytes_min buffers_min time_min bytes_max buffers_max
          time_max).min_idx < (q.length : Int)) ∧
    (0 ≤ (find_limits q bytes_min buffers_min time_min bytes_max buffers_max
          time_max).max_idx ∧
      (find_limits q bytes_min buffers_min time_min bytes_max buffers_max
          time_max).max_idx < (q.length : Int)) := by
  have h1 : (1 : Int) ≤ (q.length : Int) := by exact_mod_cast hq
  simp only [find_limits]
  split_ifs with hpre
  · dsimp only; omega
  · exact flLoop_bounds bytes_max time_max q.length q 0 _ (by simp) hq
      (Or.inl rfl) (fun h => by simp at h)

/-- Same bounds through the `count_burst_unit` wrapper. -/
theorem count_burst_unit_bounds (q : List GstBuffer) (mu : GstTCPUnitType)
    (minv : Nat) (xu : GstTCPUnitType) (maxv : Nat) (hq : 0 < q.length) :
    (0 ≤ (count_burst_unit q mu minv xu maxv).min_idx ∧
      (count_burst_unit q mu minv xu maxv).min_idx < (q.length : Int)) ∧
    (0 ≤ (count_burst_unit q mu minv xu maxv).max_idx ∧
      (count_burst_unit q mu minv xu maxv).max_idx < (q.length : Int)) := by
  unfold count_burst_unit
  exact find_limits_bounds q _ _ _ _ _ _ hq

/-! ## C6 -/

/-- C6: for a new client with sync method Burst over a non-empty
queue, the start index is `min_idx` from `find_limits` over the
client's burst parameters, except that when `max_idx ≤ min_idx` it is
`max(max_idx - 1, 0)`.  (The source's extra `max != -1` guard is
vacuous: `find_limits` always writes a non-negative `max_idx`.) -/
theorem C6_burst_start_index (q : List GstBuffer) (c : GstTCPClient)
    (hq : 0 < q.length) (hs : c.syncMethod = GstSyncMethod.burst) :
    (gst_multi_fd_sink_new_client q c).1 =
      (if (count_burst_unit q c.burstMinUnit c.burstMinValue c.burstMaxUnit
            c.burstMaxValue).max_idx ≤
          (count_burst_unit q c.burstMinUnit c.burstMinValue c.burstMaxUnit
            c.burstMaxValue).min_idx then
        max ((count_burst_unit q c.burstMinUnit c.burstMinValue c.burstMaxUnit
            c.burstMaxValue).max_idx - 1) 0
      else
        (count_burst_unit q c.burstMinUnit c.burstMinValue c.burstMaxUnit
            c.burstMaxValue).min_idx) := by
  have hb := count_burst_unit_bounds q c.burstMinUnit c.burstMinValue
    c.burstMaxUnit c.burstMaxValue hq
  unfold gst_multi_fd_sink_new_client
  rw [hs]
  dsimp only
  by_cases hle : (count_burst_unit q c.burstMinUnit c.burstMinValue
      c.burstMaxUnit c.burstMaxValue).max_idx ≤
    (count_burst_unit q c.burstMinUnit c.burstMinValue c.burstMaxUnit
      c.burstMaxValue).min_idx
  · rw [if_pos hle, if_pos (⟨by omega, hle⟩ :
      (count_burst_unit q c.burstMinUnit c.burstMinValue c.burstMaxUnit
        c.burstMaxValue).max_idx ≠ -1 ∧ _)]
  · rw [if_neg hle, if_neg (fun h => hle h.2)]

/-- Witness for C6 at the spec's burst scenario: four 500-byte
buffers, `burst_min = (Bytes, 1000)`, `burst_max = (Bytes, 2000)`;
`find_limits` yields `min_idx = 1`, `max_idx = 3`, and the start index
is 1. -/
theorem C6_burst_start_index_witness :
    (gst_multi_fd_sink_new_client
        (List.replicate 4 ⟨500, Option.none, true, false⟩)
        (clientInit 9 GstSyncMethod.burst GstTCPUnitType.bytes 1000
          GstTCPUnitType.bytes 2000)).1 = 1 :=
  (C6_burst_start_index _ _ (by decide) rfl).trans (by decide)

/-- The send half never touches `flushcount` or `bufpos`. -/
theorem sendStep_client_fields (now : Nat) (x : GstTCPClient) (wr : WriteResult) :
    (sendStep now x wr).client.flushcount = x.flushcount ∧
    (sendStep now x wr).client.bufpos = x.bufpos := by
  unfold sendStep
  split
  · exact ⟨rfl, rfl⟩
  · split <;> try exact ⟨rfl, rfl⟩
    dsimp only
    split <;> exact ⟨rfl, rfl⟩

/-- C7 counterexample: a client present in the table whose status is
already Closed is not re-armed by `remove_flush`: its `flushcount`
stays -1 instead of becoming `bufpos + 1 = 4`, and its status does not
become Flushing — refuting the claim's "for every client present in
the table". -/
theorem C7_counterexample :
    gst_multi_fd_sink_remove_flush
      [{ clientInit 6 GstSyncMethod.latest GstTCPUnitType.undefined 0
          GstTCPUnitType.undefined 0 with
          status := GstClientStatus.closed, bufpos := 3 }] 6 =
      [{ clientInit 6 GstSyncMethod.latest GstTCPUnitType.undefined 0
          GstTCPUnitType.undefined 0 with
          status := GstClientStatus.closed, bufpos := 3 }] ∧
    ({ clientInit 6 GstSyncMethod.latest GstTCPUnitType.undefined 0
        GstTCPUnitType.undefined 0 with
        status := GstClientStatus.closed, bufpos := 3 } : GstTCPClient).flushcount ≠
      3 + 1 := by
  decide

/-- C7 (amended): for every client still in status OK, `remove_flush`
sets `flushcount = bufpos + 1` and status Flushing; in the I/O write
loop, every buffer pulled from the global queue decrements a tracked
`flushcount` by one; and when `flushcount` reaches 0 with the sending
queue drained, the step returns remove with status Removed.  (Clients
whose status is no longer OK are skipped by remove_flush, per C10.) -/
theorem C7_remove_flush_then_flush_countdown (clients : List GstTCPClient)
    (fd : Int) (q : List GstBuffer) (caps : Caps) (rs : Bool) (now : Nat)
    (c : GstTCPClient) (wr : WriteResult) :
    (c ∈ clients → c.fd = fd → c.status = GstClientStatus.ok →
      { c with flushcount := c.bufpos + 1, status := GstClientStatus.flushing } ∈
        gst_multi_fd_sink_remove_flush clients fd) ∧
    (c.sending = [] → c.newConnection = false → c.bufpos ≠ -1 →
      c.flushcount ≠ -1 → c.flushcount ≠ 0 →
      (handleClientWriteStep q caps rs now c wr).client.flushcount =
        c.flushcount - 1) ∧
    (c.sending = [] → c.newConnection = false → c.flushcount = 0 →
      handleClientWriteStep q caps rs now c wr =
        StepOutcome.removeClient { c with status := GstClientStatus.removed }) := by
  refine ⟨?_, ?_, ?_⟩
  · intro hmem hfd hok
    unfold gst_multi_fd_sink_remove_flush
    have heq : ({ c with
        flushcount := c.bufpos + 1,
        status := GstClientStatus.flushing } : GstTCPClient) =
        (fun x : GstTCPClient => if x.fd = fd then
          (if x.status ≠ GstClientStatus.ok then x
           else { x with
             flushcount := x.bufpos + 1,
             status := GstClientStatus.flushing }) else x) c := by
      simp [hfd, hok]
    rw [heq]
    exact List.mem_map_of_mem _ hmem
  · intro hsend hnc hbp hfc1 hfc0
    unfold handleClientWriteStep
    rw [if_pos hsend, if_neg hbp]
    dsimp only
    rw [if_neg (fun h => by rw [hnc] at h; exact Bool.false_ne_true h.1)]
    dsimp only
    rw [if_neg hfc0]
    rw [(sendStep_client_fields now _ wr).1]
    dsimp only [gst_multi_fd_sink_client_queue_buffer]
    rw [if_pos hfc1]
  · intro hsend hnc hfc
    unfold handleClientWriteStep
    rw [if_pos hsend]
    by_cases hbp : c.bufpos = -1
    · rw [if_pos hbp, if_pos hfc]
    · rw [if_neg hbp]
      dsimp only
      rw [if_neg (fun h => by rw [hnc] at h; exact Bool.false_ne_true h.1)]
      dsimp only
      rw [if_pos hfc]

/-- Witness for C7: a concrete OK client is armed by `remove_flush`;
a concrete flushing pull decrements `flushcount` from 2 to 1; a
concrete drained client with `flushcount = 0` is removed as Removed. -/
theorem C7_remove_flush_then_flush_countdown_witness :
    ({ clientInit 4 GstSyncMethod.latest GstTCPUnitType.undefined 0
        GstTCPUnitType.undefined 0 with
        bufpos := 2, flushcount := 3, status := GstClientStatus.flushing } ∈
      gst_multi_fd_sink_remove_flush
        [{ clientInit 4 GstSyncMethod.latest GstTCPUnitType.undefined 0
            GstTCPUnitType.undefined 0 with bufpos := 2 }] 4) ∧
    ((handleClientWriteStep [⟨8, Option.none, true, false⟩] ⟨0, Option.none⟩
        false 0
        { clientInit 4 GstSyncMethod.latest GstTCPUnitType.undefined 0
            GstTCPUnitType.undefined 0 with
            newConnection := false, bufpos := 1, flushcount := 2 }
        WriteResult.eagain).client.flushcount = 1) ∧
    (handleClientWriteStep [⟨8, Option.none, true, false⟩] ⟨0, Option.none⟩
        false 0
        { clientInit 4 GstSyncMethod.latest GstTCPUnitType.undefined 0
            GstTCPUnitType.undefined 0 with
            newConnection := false, flushcount := 0 }
        WriteResult.eagain =
      StepOutcome.removeClient
        { clientInit 4 GstSyncMethod.latest GstTCPUnitType.undefined 0
            GstTCPUnitType.undefined 0 with
            newConnection := false, flushcount := 0,
            status := GstClientStatus.removed }) := by
  refine ⟨?_, ?_, ?_⟩
  · exact (C7_remove_flush_then_flush_countdown
      [{ clientInit 4 GstSyncMethod.latest GstTCPUnitType.undefined 0
          GstTCPUnitType.undefined 0 with bufpos := 2 }] 4 [] ⟨0, Option.none⟩
      false 0
      { clientInit 4 GstSyncMethod.latest GstTCPUnitType.undefined 0
          GstTCPUnitType.undefined 0 with bufpos := 2 }
      WriteResult.eagain).1 (List.mem_singleton.mpr rfl) rfl rfl
  · exact (C7_remove_flush_then_flush_countdown [] 4 _ _ false 0 _
      WriteResult.eagain).2.1 rfl rfl (by decide) (by decide) (by decide)
  · exact (C7_remove_flush_then_flush_countdown [] 4 _ _ false 0 _
      WriteResult.eagain).2.2 rfl rfl rfl


/-- A client's virtual position is -1 ("waiting") or a valid index
into the global queue. -/
def bufposValid (len : Nat) (c : GstTCPClient) : Prop :=
  c.bufpos = -1 ∨ (0 ≤ c.bufpos ∧ c.bufpos < (len : Int))

theorem findIdx?_bounds {α : Type} (p : α → Bool) :
    ∀ (l : List α) (s j : Nat), List.findIdx? p l s = Option.some j →
      s ≤ j ∧ j < s + l.length := by
  intro l
  induction l with
  | nil => intro s j h; simp [List.findIdx?] at h
  | cons x t ih =>
    intro s j h
    rw [List.findIdx?_cons] at h
    by_cases hp : p x = true
    · rw [if_pos hp] at h
      cases h
      simp
    · rw [if_neg hp] at h
      have := ih (s + 1) j h
      simp only [List.length_cons]
      omega

theorem syncScanDown_bounds (q : List GstBuffer) (n : Nat) :
    syncScanDown q n = -1 ∨
      (0 ≤ syncScanDown q n ∧ syncScanDown q n < (q.length : Int)) := by
  induction n with
  | zero =>
    unfold syncScanDown
    cases hq : q.get? 0 with
    | none => exact Or.inl rfl
    | some b =>
      dsimp only
      by_cases hsf : is_sync_frame b = true
      · rw [if_pos hsf]
        right
        have hlen : 0 < q.length := by
          by_contra hge
          rw [List.get?_eq_none.mpr (by omega)] at hq
          exact Option.noConfusion hq
        exact ⟨le_refl _, by exact_mod_cast hlen⟩
      · rw [if_neg hsf]
        exact Or.inl rfl
  | succ n ih =>
    unfold syncScanDown
    cases hq : q.get? (n + 1) with
    | none => exact ih
    | some b =>
      dsimp only
      by_cases hsf : is_sync_frame b = true
      · rw [if_pos hsf]
        right
        have hlen : n + 1 < q.length := by
          by_contra hge
          rw [List.get?_eq_none.mpr (by omega)] at hq
          exact Option.noConfusion hq
        constructor
        · omega
        · exact_mod_cast hlen
      · rw [if_neg hsf]
        exact ih

theorem syncScanUp_bounds (q : List GstBuffer) (i : Nat) :
    syncScanUp q i = -1 ∨
      (0 ≤ syncScanUp q i ∧ syncScanUp q i < (q.length : Int)) := by
  unfold syncScanUp
  cases hf : (q.drop i).findIdx? (fun b => is_sync_frame b) with
  | none => exact Or.inl rfl
  | some j =>
    dsimp only
    right
    have hj := findIdx?_bounds _ _ 0 j hf
    rw [List.length_drop] at hj
    have hij : i + j < q.length := by omega
    constructor
    · omega
    · exact_mod_cast hij

theorem find_prev_syncframe_bounds (q : List GstBuffer) (idx : Int) :
    find_prev_syncframe q idx = -1 ∨
      (0 ≤ find_prev_syncframe q idx ∧
        find_prev_syncframe q idx < (q.length : Int)) := by
  unfold find_prev_syncframe
  split
  · exact Or.inl rfl
  · exact syncScanDown_bounds q idx.toNat

theorem find_next_syncframe_bounds (q : List GstBuffer) (idx : Int) :
    find_next_syncframe q idx = -1 ∨
      (0 ≤ find_next_syncframe q idx ∧
        find_next_syncframe q idx < (q.length : Int)) := by
  unfold find_next_syncframe
  split
  · exact Or.inl rfl
  · exact syncScanUp_bounds q idx.toNat

/-- The sync policy hands back a start index that is -1 or a valid
queue index, and leaves the client's own position valid. -/
theorem new_client_bounds (q : List GstBuffer) (c : GstTCPClient)
    (hq : 0 < q.length) (hc : bufposValid q.length c) :
    ((gst_multi_fd_sink_new_client q c).1 = -1 ∨
      (0 ≤ (gst_multi_fd_sink_new_client q c).1 ∧
        (gst_multi_fd_sink_new_client q c).1 < (q.length : Int))) ∧
    bufposValid q.length (gst_multi_fd_sink_new_client q c).2 := by
  have h1 : (1 : Int) ≤ (q.length : Int) := by exact_mod_cast hq
  unfold gst_multi_fd_sink_new_client
  cases c.syncMethod with
  | latest => exact ⟨hc, hc⟩
  | nextKeyframe =>
    dsimp only
    split
    · exact ⟨find_prev_syncframe_bounds q c.bufpos, hc⟩
    · exact ⟨find_prev_syncframe_bounds q c.bufpos, Or.inl rfl⟩
  | latestKeyframe =>
    dsimp only
    split
    · exact ⟨find_next_syncframe_bounds q 0, hc⟩
    · exact ⟨find_next_syncframe_bounds q 0, Or.inl rfl⟩
  | burst =>
    dsimp only
    have hb := count_burst_unit_bounds q c.burstMinUnit c.burstMinValue
      c.burstMaxUnit c.burstMaxValue hq
    split
    · refine ⟨Or.inr ⟨le_max_right _ _, ?_⟩, hc⟩
      rw [max_lt_iff]
      omega
    · exact ⟨Or.inr hb.1, hc⟩
  | burstKeyframe =>
    dsimp only
    split
    · refine ⟨?_, hc⟩
      rcases find_next_syncframe_bounds q
          (count_burst_unit q c.burstMinUnit c.burstMinValue c.burstMaxUnit
            c.burstMaxValue).min_idx with h | h
      · exact Or.inl h
      · exact Or.inr h
    · split
      · refine ⟨?_, hc⟩
        rcases find_prev_syncframe_bounds q
            (count_burst_unit q c.burstMinUnit c.burstMinValue c.burstMaxUnit
              c.burstMaxValue).min_idx with h | h
        · exact Or.inl h
        · exact Or.inr h
      · exact ⟨Or.inl rfl, Or.inl rfl⟩
  | burstWithKeyframe =>
    dsimp only
    have hb := count_burst_unit_bounds q c.burstMinUnit c.burstMinValue
      c.burstMaxUnit c.burstMaxValue hq
    split
    · refine ⟨?_, hc⟩
      rcases find_next_syncframe_bounds q
          (count_burst_unit q c.burstMinUnit c.burstMinValue c.burstMaxUnit
            c.burstMaxValue).min_idx with h | h
      · exact Or.inl h
      · exact Or.inr h
    · split
      · refine ⟨Or.inr ⟨le_max_right _ _, ?_⟩, hc⟩
        rw [max_lt_iff]
        omega
      · exact ⟨Or.inr hb.1, hc⟩

/-- The per-client update of `queue_buffer` (position increment,
soft-max recovery, hard-max / timeout eviction) keeps a surviving
client's position valid for the new, not yet trimmed queue. -/
theorem queueBufferClientUpdate_bounds (cfg : SinkConfig) (q : List GstBuffer)
    (maxB softB : Int) (now : Nat) (c c' : GstTCPClient)
    (hq : 0 < q.length)
    (hsoft : softB = if cfg.unitsSoftMax > 0 then
      get_buffers_max q cfg.unitType cfg.unitsSoftMax else -1)
    (hc : c.bufpos = -1 ∨ (0 ≤ c.bufpos ∧ c.bufpos < (q.length : Int) - 1))
    (hu : queueBufferClientUpdate cfg q maxB softB now c = Option.some c') :
    bufposValid q.length c' := by
  have h1 : (1 : Int) ≤ (q.length : Int) := by exact_mod_cast hq
  have hinc : 0 ≤ c.bufpos + 1 ∧ c.bufpos + 1 < (q.length : Int) := by
    rcases hc with h | h <;> constructor <;> omega
  unfold queueBufferClientUpdate at hu
  dsimp only at hu
  set N := gst_multi_fd_sink_recover_client q cfg.unitType cfg.unitsSoftMax
    cfg.recoverPolicy (c.bufpos + 1) with hN
  have hNvalid : (softB > 0 ∧ c.bufpos + 1 ≥ softB) →
      (N = -1 ∨ (0 ≤ N ∧ N < (q.length : Int))) := by
    intro hguard
    have hsofteq : softB = get_buffers_max q cfg.unitType cfg.unitsSoftMax := by
      by_cases hus : cfg.unitsSoftMax > 0
      · rw [hsoft, if_pos hus]
      · exfalso
        have hgt := hguard.1
        rw [hsoft, if_neg hus] at hgt
        omega
    rw [hN]
    unfold gst_multi_fd_sink_recover_client
    cases cfg.recoverPolicy with
    | none =>
      dsimp only
      exact Or.inr ⟨by omega, hinc.2⟩
    | resyncLatest => exact Or.inl rfl
    | resyncSoftLimit =>
      dsimp only
      right
      rw [← hsofteq]
      have hg1 := hguard.1
      have hg2 := hguard.2
      omega
    | resyncKeyframe =>
      dsimp only
      split
      · exact Or.inl rfl
      · exact syncScanDown_bounds q _
  by_cases hguard : softB > 0 ∧ c.bufpos + 1 ≥ softB
  · rw [if_pos hguard] at hu
    by_cases hchg : N ≠ c.bufpos + 1
    · rw [if_pos hchg] at hu
      split at hu
      · exact Option.noConfusion hu
      · injection hu with hu
        subst hu
        unfold bufposValid
        dsimp only
        exact (hNvalid hguard).elim Or.inl Or.inr
    · rw [if_neg hchg] at hu
      split at hu
      · exact Option.noConfusion hu
      · injection hu with hu
        subst hu
        exact Or.inr hinc
  · rw [if_neg hguard] at hu
    split at hu
    · exact Option.noConfusion hu
    · injection hu with hu
      subst hu
      exact Or.inr hinc

/-- The running maximum over client positions dominates the initial
value and every member's position. -/
theorem foldl_maxpos (l : List GstTCPClient) :
    ∀ init : Int,
      init ≤ l.foldl (fun m c => if c.bufpos > m then c.bufpos else m) init ∧
      ∀ c ∈ l, c.bufpos ≤
        l.foldl (fun m c => if c.bufpos > m then c.bufpos else m) init := by
  induction l with
  | nil =>
    intro init
    exact ⟨le_refl _, by simp⟩
  | cons x t ih =>
    intro init
    simp only [List.foldl_cons]
    constructor
    · calc init ≤ (if x.bufpos > init then x.bufpos else init) := by
            split <;> omega
        _ ≤ _ := (ih _).1
    · intro c hc
      rcases List.mem_cons.mp hc with rfl | hm
      · calc c.bufpos ≤ (if c.bufpos > init then c.bufpos else init) := by
              split <;> omega
          _ ≤ _ := (ih _).1
      · exact (ih _).2 c hm

/-- The max-usage bound is never negative. -/
theorem queueBufferMaxUsage_nonneg (cfg : SinkConfig) (q : List GstBuffer)
    (softMaxBuffers : Int) (clients : List GstTCPClient) :
    0 ≤ queueBufferMaxUsage cfg q softMaxBuffers clients := by
  unfold queueBufferMaxUsage
  dsimp only
  have h0 := (foldl_maxpos clients 0).1
  refine le_trans (le_trans h0 (le_max_left _
    ((find_limits q cfg.bytesMin cfg.buffersMin cfg.timeMin (-1) (-1)
      Option.none).min_idx + 1))) ?_
  split
  · split
    · exact le_max_left _ _
    · exact le_refl _
  · exact le_refl _

/-- The max-usage bound dominates every client position it was
computed from. -/
theorem queueBufferMaxUsage_ge (cfg : SinkConfig) (q : List GstBuffer)
    (softMaxBuffers : Int) (clients : List GstTCPClient)
    (c : GstTCPClient) (hc : c ∈ clients) :
    c.bufpos ≤ queueBufferMaxUsage cfg q softMaxBuffers clients := by
  unfold queueBufferMaxUsage
  dsimp only
  have hb := (foldl_maxpos clients 0).2 c hc
  refine le_trans (le_trans hb (le_max_left _
    ((find_limits q cfg.bytesMin cfg.buffersMin cfg.timeMin (-1) (-1)
      Option.none).min_idx + 1))) ?_
  split
  · split
    · exact le_max_left _ _
    · exact le_refl _
  · exact le_refl _

/-- Shape of a `queue_buffer` result: the new queue is the prepended
queue trimmed at a bound `m ≥ 0` that dominates every surviving
client's position, and the client list is the per-client update of the
old one. -/
theorem queue_buffer_shape (cfg : SinkConfig) (st : SinkState)
    (buf : GstBuffer) (now : Nat) :
    ∃ m : Int, 0 ≤ m ∧
      (gst_multi_fd_sink_queue_buffer cfg st buf now).bufqueue =
        (buf :: st.bufqueue).take (m.toNat + 1) ∧
      (gst_multi_fd_sink_queue_buffer cfg st buf now).clients =
        st.clients.filterMap (queueBufferClientUpdate cfg (buf :: st.bufqueue)
          (if cfg.unitsMax > 0 then
            get_buffers_max (buf :: st.bufqueue) cfg.unitType cfg.unitsMax
          else -1)
          (if cfg.unitsSoftMax > 0 then
            get_buffers_max (buf :: st.bufqueue) cfg.unitType cfg.unitsSoftMax
          else -1) now) ∧
      ∀ c ∈ (gst_multi_fd_sink_queue_buffer cfg st buf now).clients,
        c.bufpos ≤ m := by
  unfold gst_multi_fd_sink_queue_buffer
  dsimp only
  exact ⟨_, queueBufferMaxUsage_nonneg _ _ _ _, rfl, rfl,
    fun c hc => queueBufferMaxUsage_ge _ _ _ _ c hc⟩

/-- `queue_buffer` preserves the bufpos invariant: starting from a
state whose clients are all valid for the old queue, every surviving
client is valid for the new, trimmed queue. -/
theorem queue_buffer_bufposValid (cfg : SinkConfig) (st : SinkState)
    (buf : GstBuffer) (now : Nat)
    (hinv : ∀ c ∈ st.clients, bufposValid st.bufqueue.length c) :
    ∀ c' ∈ (gst_multi_fd_sink_queue_buffer cfg st buf now).clients,
      bufposValid (gst_multi_fd_sink_queue_buffer cfg st buf now).bufqueue.length
        c' := by
  obtain ⟨m, hm0, hbq, hcl, hbound⟩ := queue_buffer_shape cfg st buf now
  intro c' hc'
  have hmax := hbound c' hc'
  rw [hcl] at hc'
  obtain ⟨c, hcmem, hupd⟩ := List.mem_filterMap.mp hc'
  have hq : 0 < (buf :: st.bufqueue).length := by simp
  have hcin : c.bufpos = -1 ∨
      (0 ≤ c.bufpos ∧ c.bufpos < ((buf :: st.bufqueue).length : Int) - 1) := by
    rcases hinv c hcmem with h | h
    · exact Or.inl h
    · right
      refine ⟨h.1, ?_⟩
      have h2 := h.2
      simp only [List.length_cons]
      push_cast
      omega
  have hvalid : bufposValid (buf :: st.bufqueue).length c' :=
    queueBufferClientUpdate_bounds cfg (buf :: st.bufqueue) _ _ now c c' hq rfl
      hcin hupd
  rw [hbq]
  rcases hvalid with h | h
  · exact Or.inl h
  · right
    refine ⟨h.1, ?_⟩
    rw [List.length_take]
    have htn : ((m.toNat : Int)) = m := Int.toNat_of_nonneg hm0
    have h2 := h.2
    rw [Nat.cast_min]
    push_cast
    omega


/-- One `handle_client_write` iteration keeps the client's position
valid: positions only move to a sync-policy index inside the queue or
down by one (to -1 at the oldest buffer). -/
theorem writeStep_bufposValid (q : List GstBuffer) (caps : Caps) (rs : Bool)
    (now : Nat) (c : GstTCPClient) (wr : WriteResult)
    (hq : 0 < q.length) (hc : bufposValid q.length c) :
    bufposValid q.length (handleClientWriteStep q caps rs now c wr).client := by
  unfold handleClientWriteStep
  by_cases hsend : c.sending = []
  · rw [if_pos hsend]
    by_cases hbp : c.bufpos = -1
    · rw [if_pos hbp]
      split
      · exact Or.inl hbp
      · exact hc
    · rw [if_neg hbp]
      dsimp only
      have hcr : 0 ≤ c.bufpos ∧ c.bufpos < (q.length : Int) := by
        rcases hc with h | h
        · exact absurd h hbp
        · exact h
      by_cases hcond : (c.newConnection = true) ∧
          ¬(c.status = GstClientStatus.flushing)
      · rw [if_pos hcond]
        obtain ⟨hnb, hcl2⟩ := new_client_bounds q c hq hc
        by_cases hpos : (gst_multi_fd_sink_new_client q c).1 ≥ 0
        · rw [if_pos hpos]
          dsimp only
          have hr : 0 ≤ (gst_multi_fd_sink_new_client q c).1 ∧
              (gst_multi_fd_sink_new_client q c).1 < (q.length : Int) := by
            rcases hnb with h | h
            · omega
            · exact h
          split
          · exact Or.inr hr
          · unfold bufposValid
            rw [(sendStep_client_fields now _ wr).2]
            dsimp only [gst_multi_fd_sink_client_queue_buffer]
            omega
        · rw [if_neg hpos]
          dsimp only
          exact hcl2
      · rw [if_neg hcond]
        dsimp only
        split
        · exact hc
        · unfold bufposValid
          rw [(sendStep_client_fields now _ wr).2]
          dsimp only [gst_multi_fd_sink_client_queue_buffer]
          omega
  · rw [if_neg hsend]
    unfold bufposValid
    rw [(sendStep_client_fields now _ wr).2]
    exact hc

/-- C5: at every clients-lock release point modelled here — after
`render` (queue prepend, per-client position update, recovery,
eviction and tail trim) and after a `handle_client_write` iteration
(new-connection positioning and the `bufpos` decrement of a pull) —
every client's `bufpos` is either -1 or in `[0, queue_len)`. -/
theorem C5_bufpos_invariant (cfg : SinkConfig) (st : SinkState) (buf : GstBuffer)
    (q : List GstBuffer) (caps : Caps) (rs : Bool) (now : Nat)
    (c : GstTCPClient) (wr : WriteResult) :
    ((∀ x ∈ st.clients, bufposValid st.bufqueue.length x) →
      ∀ x ∈ (gst_multi_fd_sink_render cfg st buf now).clients,
        bufposValid (gst_multi_fd_sink_render cfg st buf now).bufqueue.length x) ∧
    (0 < q.length → bufposValid q.length c →
      bufposValid q.length (handleClientWriteStep q caps rs now c wr).client) := by
  constructor
  · intro hinv x hx
    cases hb : buf.isHeader <;> cases hp : st.previousBufferInCaps <;>
        simp only [gst_multi_fd_sink_render, hb, hp] at hx ⊢ <;>
      first
        | exact hinv x hx
        | exact queue_buffer_bufposValid cfg _ buf now hinv x hx
  · intro hq hc
    exact writeStep_bufposValid q caps rs now c wr hq hc

/-- Witness for C5: after a concrete `render` of a data buffer onto a
one-buffer queue, the single client's position advanced to 1 and stays
valid; a concrete write iteration pulls the oldest buffer and leaves
the position at -1, still valid. -/
theorem C5_bufpos_invariant_witness :
    bufposValid
      (gst_multi_fd_sink_render
        ⟨GstTCPUnitType.buffers, -1, -1, GstRecoverPolicy.none, 0, -1, -1,
          Option.none, GstSyncMethod.latest, false⟩
        ⟨[⟨5, Option.none, true, false⟩],
          [{ clientInit 3 GstSyncMethod.latest GstTCPUnitType.undefined 0
              GstTCPUnitType.undefined 0 with bufpos := 0 }], [], false, 0, 0⟩
        ⟨7, Option.none, true, false⟩ 0).bufqueue.length
      { clientInit 3 GstSyncMethod.latest GstTCPUnitType.undefined 0
          GstTCPUnitType.undefined 0 with bufpos := 1 } ∧
    bufposValid [(⟨5, Option.none, true, false⟩ : GstBuffer)].length
      (handleClientWriteStep [⟨5, Option.none, true, false⟩] ⟨0, Option.none⟩
        false 0
        { clientInit 3 GstSyncMethod.latest GstTCPUnitType.undefined 0
            GstTCPUnitType.undefined 0 with bufpos := 0 }
        WriteResult.eagain).client := by
  constructor
  · exact (C5_bufpos_invariant
      ⟨GstTCPUnitType.buffers, -1, -1, GstRecoverPolicy.none, 0, -1, -1,
        Option.none, GstSyncMethod.latest, false⟩
      ⟨[⟨5, Option.none, true, false⟩],
        [{ clientInit 3 GstSyncMethod.latest GstTCPUnitType.undefined 0
            GstTCPUnitType.undefined 0 with bufpos := 0 }], [], false, 0, 0⟩
      ⟨7, Option.none, true, false⟩ [] ⟨0, Option.none⟩ false 0
      (clientInit 0 GstSyncMethod.latest GstTCPUnitType.undefined 0
        GstTCPUnitType.undefined 0) WriteResult.eagain).1
      (fun x hx => by
        simp only [List.mem_singleton] at hx
        subst hx
        exact Or.inr (by decide))
      { clientInit 3 GstSyncMethod.latest GstTCPUnitType.undefined 0
          GstTCPUnitType.undefined 0 with bufpos := 1 }
      (by decide)
  · exact (C5_bufpos_invariant
      ⟨GstTCPUnitType.buffers, -1, -1, GstRecoverPolicy.none, 0, -1, -1,
        Option.none, GstSyncMethod.latest, false⟩
      ⟨[], [], [], false, 0, 0⟩ ⟨0, Option.none, false, false⟩
      [⟨5, Option.none, true, false⟩] ⟨0, Option.none⟩ false 0
      { clientInit 3 GstSyncMethod.latest GstTCPUnitType.undefined 0
          GstTCPUnitType.undefined 0 with bufpos := 0 }
      WriteResult.eagain).2 (by decide) (Or.inr (by decide))

/-! ## C2: characterizing the satisfied flag of find_limits -/

/-- Bytes accumulated over the first `p` buffers. -/
def bytesThrough (q : List GstBuffer) (p : Nat) : Nat :=
  ((q.take p).map GstBuffer.size).sum

/-- First valid timestamp among the first `p` buffers. -/
def firstTsThrough (q : List GstBuffer) (p : Nat) : Option Nat :=
  (q.take p).findSome? GstBuffer.timestamp

/-- The time-axis comparison the scan makes while processing buffer
`j` against a threshold `m`: buffer `j` carries a timestamp and its
64-bit distance from the first valid timestamp so far reaches `m`. -/
def timeCondAt (q : List GstBuffer) (m : Nat) (j : Nat) : Bool :=
  match (q.getD j default).timestamp with
  | Option.some t => decide (sub64 ((firstTsThrough q (j + 1)).getD t) t ≥ m)
  | Option.none => false

/-- A byte or time maximum is reached while processing buffer `j`
(the buffers maximum never participates, as in the source). -/
def maxCondAt (q : List GstBuffer) (bytes_max : Int) (time_max : Option Nat)
    (j : Nat) : Bool :=
  (decide (bytes_max ≠ -1) &&
    decide ((bytesThrough q (j + 1) : Int) ≥ bytes_max)) ||
  (match time_max with
   | Option.some m => timeCondAt q m j
   | Option.none => false)

/-- The byte minimum is discharged by the first `p` buffers (the scan
can only discharge it while processing a buffer, hence `1 ≤ p`). -/
def bytesMinMetBy (q : List GstBuffer) (bytes_min : Int) (p : Nat) : Prop :=
  bytes_min = -1 ∨ (1 ≤ p ∧ (bytesThrough q p : Int) ≥ bytes_min)

/-- The time minimum is discharged by the first `p` buffers. -/
def timeMinMetBy (q : List GstBuffer) (time_min : Option Nat) (p : Nat) : Prop :=
  match time_min with
  | Option.none => True
  | Option.some m => ∃ j, j < p ∧ timeCondAt q m j = true

/-- All minimums discharged by the first `p` buffers. -/
def minsMetBy (q : List GstBuffer) (bytes_min : Int) (time_min : Option Nat)
    (p : Nat) : Prop :=
  bytesMinMetBy q bytes_min p ∧ timeMinMetBy q time_min p

/-- The specification of `find_limits`' satisfied flag, from the
claim's words as amended: the buffers-min length precheck passes, a
byte/time maximum is first exceeded at an index `j` strictly below the
last buffer, and all byte/time minimums are met within the first
`j + 1` buffers. -/
def flSatisfiedSpec (q : List GstBuffer) (bytes_min buffers_min : Int)
    (time_min : Option Nat) (bytes_max : Int) (time_max : Option Nat) : Prop :=
  ¬(buffers_min ≠ -1 ∧ (q.length : Int) < buffers_min) ∧
  ∃ j, j + 2 ≤ q.length ∧ maxCondAt q bytes_max time_max j = true ∧
    (∀ j' < j, maxCondAt q bytes_max time_max j' = false) ∧
    minsMetBy q bytes_min time_min (j + 1)

theorem bytesThrough_succ (q : List GstBuffer) (k : Nat) (b : GstBuffer)
    (hb : q.get? k = Option.some b) :
    bytesThrough q (k + 1) = bytesThrough q k + b.size := by
  unfold bytesThrough
  rw [List.get?_eq_getElem?] at hb
  rw [List.take_succ, hb]
  simp

theorem bytesThrough_le_succ (q : List GstBuffer) (k : Nat) :
    bytesThrough q k ≤ bytesThrough q (k + 1) := by
  unfold bytesThrough
  rw [List.take_succ, List.map_append, List.sum_append]
  exact Nat.le_add_right _ _

theorem firstTsThrough_succ (q : List GstBuffer) (k : Nat) (b : GstBuffer)
    (hb : q.get? k = Option.some b) :
    firstTsThrough q (k + 1) =
      match firstTsThrough q k with
      | Option.some f => Option.some f
      | Option.none => b.timestamp := by
  unfold firstTsThrough
  rw [List.get?_eq_getElem?] at hb
  rw [List.take_succ, hb, List.findSome?_append]
  cases (q.take k).findSome? GstBuffer.timestamp with
  | none =>
    simp [List.findSome?]
    cases b.timestamp <;> rfl
  | some f => rfl

theorem getD_of_get? (q : List GstBuffer) (k : Nat) (b : GstBuffer)
    (hb : q.get? k = Option.some b) : q.getD k default = b := by
  unfold List.getD
  rw [hb]
  rfl

theorem bytesMinMetBy_succ (q : List GstBuffer) (bm : Int) (p : Nat)
    (h : bytesMinMetBy q bm p) : bytesMinMetBy q bm (p + 1) := by
  rcases h with h | h
  · exact Or.inl h
  · right
    have := bytesThrough_le_succ q p
    have h2 := h.2
    exact ⟨by omega, by omega⟩

theorem timeMinMetBy_succ (q : List GstBuffer) (tm : Option Nat) (p : Nat)
    (h : timeMinMetBy q tm p) : timeMinMetBy q tm (p + 1) := by
  unfold timeMinMetBy at h ⊢
  cases tm with
  | none => trivial
  | some m =>
    obtain ⟨j, hj, hc⟩ := h
    exact ⟨j, by omega, hc⟩

theorem timeMinMetBy_succ_iff (q : List GstBuffer) (tm : Option Nat) (p : Nat) :
    timeMinMetBy q tm (p + 1) ↔
      (timeMinMetBy q tm p ∨
        ∃ m, tm = Option.some m ∧ timeCondAt q m p = true) := by
  unfold timeMinMetBy
  cases tm with
  | none => simp
  | some m =>
    constructor
    · rintro ⟨j, hj, hc⟩
      by_cases hjp : j < p
      · exact Or.inl ⟨j, hjp, hc⟩
      · have hje : j = p := by omega
        subst hje
        exact Or.inr ⟨m, rfl, hc⟩
    · rintro (⟨j, hj, hc⟩ | ⟨m', hm', hc⟩)
      · exact ⟨j, by omega, hc⟩
      · injection hm' with hm'
        subst hm'
        exact ⟨p, by omega, hc⟩

theorem minsMetBy_succ (q : List GstBuffer) (bm : Int) (tm : Option Nat)
    (p : Nat) (h : minsMetBy q bm tm p) : minsMetBy q bm tm (p + 1) :=
  ⟨bytesMinMetBy_succ q bm p h.1, timeMinMetBy_succ q tm p h.2⟩

/-- One `flStep` maintains every component invariant of the scan. -/
theorem flStep_invariants (q : List GstBuffer) (bytes_min : Int)
    (time_min : Option Nat) (bytesMax : Int) (timeMax : Option Nat)
    (k : Nat) (b : GstBuffer) (st : FLState)
    (hget : q.get? k = Option.some b)
    (hbytes : st.bytes = bytesThrough q k)
    (hfirst : st.first = firstTsThrough q k)
    (hbm1 : st.bytesMin = -1 ↔ bytesMinMetBy q bytes_min k)
    (hbm2 : st.bytesMin = -1 ∨ st.bytesMin = bytes_min)
    (htm1 : st.timeMin = Option.none ↔ timeMinMetBy q time_min k)
    (htm2 : st.timeMin = Option.none ∨ st.timeMin = time_min) :
    (flStep bytesMax timeMax b st).bytes = bytesThrough q (k + 1) ∧
    (flStep bytesMax timeMax b st).first = firstTsThrough q (k + 1) ∧
    ((flStep bytesMax timeMax b st).bytesMin = -1 ↔
      bytesMinMetBy q bytes_min (k + 1)) ∧
    ((flStep bytesMax timeMax b st).bytesMin = -1 ∨
      (flStep bytesMax timeMax b st).bytesMin = bytes_min) ∧
    ((flStep bytesMax timeMax b st).timeMin = Option.none ↔
      timeMinMetBy q time_min (k + 1)) ∧
    ((flStep bytesMax timeMax b st).timeMin = Option.none ∨
      (flStep bytesMax timeMax b st).timeMin = time_min) ∧
    (flStep bytesMax timeMax b st).maxHit = maxCondAt q bytesMax timeMax k := by
  have hbs := bytesThrough_succ q k b hget
  have hfs := firstTsThrough_succ q k b hget
  have hgd := getD_of_get? q k b hget
  have hfeq : ∀ t : Nat, b.timestamp = Option.some t →
      (firstTsThrough q (k + 1)).getD t = st.first.getD t := by
    intro t ht
    rw [hfs, hfirst]
    cases hfk : firstTsThrough q k with
    | none => rw [ht]; rfl
    | some f0 => rfl
  refine ⟨?_, ?_, ?_, ?_, ?_, ?_, ?_⟩
  · unfold flStep
    dsimp only
    rw [hbytes]
    exact hbs.symm
  · unfold flStep
    dsimp only
    cases hts : b.timestamp with
    | some t =>
      dsimp only
      rw [hfs, hfirst]
      cases hfk : firstTsThrough q k with
      | none => rw [hts]; rfl
      | some f0 => rfl
    | none =>
      dsimp only
      rw [hfs, hfirst]
      cases hfk : firstTsThrough q k with
      | none => rw [hts]
      | some f0 => rfl
  · unfold flStep
    dsimp only
    by_cases hsb : st.bytesMin = -1
    · rw [if_neg (fun h => h.1 hsb)]
      exact iff_of_true hsb (bytesMinMetBy_succ q bytes_min k (hbm1.mp hsb))
    · have hsb2 : st.bytesMin = bytes_min := by
        rcases hbm2 with h | h
        · exact absurd h hsb
        · exact h
      by_cases hge : ((bytesThrough q (k + 1) : Int) ≥ bytes_min)
      · rw [if_pos ⟨hsb, by rw [hsb2, hbytes, ← hbs]; exact_mod_cast hge⟩]
        exact iff_of_true rfl (Or.inr ⟨by omega, hge⟩)
      · rw [if_neg (fun h => hge (by
          have h2 := h.2
          rw [hsb2, hbytes, ← hbs] at h2
          exact_mod_cast h2))]
        refine iff_of_false hsb ?_
        rintro (h | ⟨_, h⟩)
        · exact hsb (hsb2.trans h)
        · exact hge h
  · unfold flStep
    dsimp only
    split
    · exact Or.inl rfl
    · exact hbm2
  · unfold flStep
    dsimp only
    cases hts : b.timestamp with
    | none =>
      dsimp only
      rw [timeMinMetBy_succ_iff]
      constructor
      · intro h
        exact Or.inl (htm1.mp h)
      · rintro (h | ⟨m, hm, hc⟩)
        · exact htm1.mpr h
        · unfold timeCondAt at hc
          rw [hgd, hts] at hc
          exact Bool.noConfusion hc
    | some t =>
      dsimp only
      rcases htm2 with hst | hst
      · rw [hst]
        dsimp only
        exact iff_of_true rfl (timeMinMetBy_succ q time_min k (htm1.mp hst))
      · cases time_min with
        | none =>
          rw [hst]
          dsimp only
          refine iff_of_true rfl ?_
          unfold timeMinMetBy
          trivial
        | some m =>
          rw [hst]
          dsimp only
          have hcnd : timeCondAt q m k = decide (sub64 (st.first.getD t) t ≥ m) := by
            unfold timeCondAt
            rw [hgd, hts]
            dsimp only
            rw [hfeq t hts]
          by_cases hsub : sub64 (st.first.getD t) t ≥ m
          · rw [if_pos hsub]
            refine iff_of_true rfl ?_
            unfold timeMinMetBy
            exact ⟨k, by omega, by rw [hcnd]; exact decide_eq_true hsub⟩
          · rw [if_neg hsub]
            refine iff_of_false (fun h => Option.noConfusion h) ?_
            intro hmet
            rcases (timeMinMetBy_succ_iff q (Option.some m) k).mp hmet with
              h | ⟨m', hm', hc⟩
            · have hnone : st.timeMin = Option.none := htm1.mpr h
              rw [hst] at hnone
              exact Option.noConfusion hnone
            · injection hm' with hm'
              subst hm'
              rw [hcnd] at hc
              exact absurd (of_decide_eq_true hc) hsub
  · unfold flStep
    dsimp only
    cases hts : b.timestamp with
    | none =>
      dsimp only
      exact htm2
    | some t =>
      dsimp only
      rcases htm2 with hst | hst
      · rw [hst]
        exact Or.inl rfl
      · rw [hst]
        cases time_min with
        | none => exact Or.inl rfl
        | some m =>
          dsimp only
          split
          · exact Or.inl rfl
          · exact Or.inr rfl
  · unfold flStep maxCondAt
    dsimp only
    have hbeq : decide (bytesMax ≠ -1 ∧ ((st.bytes + b.size : Nat) : Int) ≥ bytesMax) =
        (decide (bytesMax ≠ -1) &&
          decide ((bytesThrough q (k + 1) : Int) ≥ bytesMax)) := by
      rw [Bool.decide_and, hbytes, ← hbs]
    cases hts : b.timestamp with
    | none =>
      dsimp only
      rw [hbeq, Bool.false_or]
      cases timeMax with
      | none =>
        dsimp only
        rw [Bool.or_false]
      | some m =>
        dsimp only
        have hzero : timeCondAt q m k = false := by
          unfold timeCondAt
          rw [hgd, hts]
        rw [hzero, Bool.or_false]
    | some t =>
      dsimp only
      cases timeMax with
      | none =>
        dsimp only
        rw [hbeq, Bool.false_or, Bool.or_false]
      | some m =>
        dsimp only
        have hsame : timeCondAt q m k = decide (sub64 (st.first.getD t) t ≥ m) := by
          unfold timeCondAt
          rw [hgd, hts]
          dsimp only
          rw [hfeq t hts]
        rw [hbeq, hsame, Bool.or_comm]

theorem flFinish_satisfied (len : Nat) (minIdx maxIdx : Int) (sat : Bool) :
    (flFinish len minIdx maxIdx sat).satisfied = sat := rfl

/-- The loop's satisfied result, characterized: starting from a state
whose components reflect the first `k` buffers (no break yet), the
loop returns true exactly when a byte/time max is first exceeded at an
index that still has a successor iteration, with all mins met by
then. -/
theorem flLoop_sat_iff (q : List GstBuffer) (bytes_min : Int)
    (time_min : Option Nat) (bytesMax : Int) (timeMax : Option Nat) :
    ∀ (rest : List GstBuffer) (k : Nat) (st : FLState),
      rest = q.drop k →
      st.bytes = bytesThrough q k →
      st.first = firstTsThrough q k →
      (st.bytesMin = -1 ↔ bytesMinMetBy q bytes_min k) →
      (st.bytesMin = -1 ∨ st.bytesMin = bytes_min) →
      (st.timeMin = Option.none ↔ timeMinMetBy q time_min k) →
      (st.timeMin = Option.none ∨ st.timeMin = time_min) →
      (st.minIdx = -1 ↔ ¬(1 ≤ k ∧ minsMetBy q bytes_min time_min (k - 1))) →
      (st.maxHit = true ↔ ∃ j, j < k ∧ maxCondAt q bytesMax timeMax j = true) →
      (∀ j, j + 1 < k → maxCondAt q bytesMax timeMax j = false) →
      ((flLoop bytesMax timeMax q.length rest k st).satisfied = true ↔
        ∃ j, j + 2 ≤ q.length ∧ maxCondAt q bytesMax timeMax j = true ∧
          (∀ j' < j, maxCondAt q bytesMax timeMax j' = false) ∧
          minsMetBy q bytes_min time_min (j + 1)) := by
  intro rest
  induction rest with
  | nil =>
    intro k st hdrop hbytes hfirst hbm1 hbm2 htm1 htm2 hmi hmh hne
    have hlen : q.length ≤ k := List.drop_eq_nil_iff_le.mp hdrop.symm
    simp only [flLoop, flFinish_satisfied]
    constructor
    · intro hfalse
      exact Bool.noConfusion hfalse
    · rintro ⟨j, hj2, hmax, _, _⟩
      have hj : maxCondAt q bytesMax timeMax j = false := hne j (by omega)
      rw [hj] at hmax
      exact Bool.noConfusion hmax
  | cons b rest' ih =>
    intro k st hdrop hbytes hfirst hbm1 hbm2 htm1 htm2 hmi hmh hne
    have hget : q.get? k = Option.some b := by
      have hd0 := List.get?_drop q k 0
      rw [← hdrop] at hd0
      simpa using hd0.symm
    have hdrop' : rest' = q.drop (k + 1) := by
      have hdd := List.drop_drop 1 k q
      rw [← hdrop] at hdd
      simpa using hdd
    have hklen : k < q.length := by
      by_contra h
      rw [List.drop_eq_nil_iff_le.mpr (by omega)] at hdrop
      exact List.noConfusion hdrop
    have hbreak : ∀ MI : Int,
        (MI = -1 ↔ ¬ minsMetBy q bytes_min time_min k) →
        st.maxHit = true →
        ((flFinish q.length MI ((k : Int) - 1) (decide (MI ≠ -1))).satisfied =
            true ↔
          ∃ j, j + 2 ≤ q.length ∧ maxCondAt q bytesMax timeMax j = true ∧
            (∀ j' < j, maxCondAt q bytesMax timeMax j' = false) ∧
            minsMetBy q bytes_min time_min (j + 1)) := by
      intro MI hAmi hh
      rw [flFinish_satisfied, decide_eq_true_iff]
      obtain ⟨j0, hj0k, hj0max⟩ := hmh.mp hh
      have hk1 : 1 ≤ k := by omega
      have hj0 : j0 = k - 1 := by
        by_contra hne2
        have hlt : j0 + 1 < k := by omega
        rw [hne j0 hlt] at hj0max
        exact Bool.noConfusion hj0max
      subst hj0
      constructor
      · intro hMI
        have hm : minsMetBy q bytes_min time_min k := by
          by_contra h
          exact hMI (hAmi.mpr h)
        refine ⟨k - 1, by omega, hj0max, ?_, ?_⟩
        · intro j' hj'
          exact hne j' (by omega)
        · rw [Nat.sub_add_cancel hk1]
          exact hm
      · rintro ⟨j, hj2, hmax, hfir, hmins⟩
        have hjeq : j = k - 1 := by
          rcases Nat.lt_trichotomy j (k - 1) with h | h | h
          · exfalso
            have hz := hne j (by omega)
            rw [hz] at hmax
            exact Bool.noConfusion hmax
          · exact h
          · exfalso
            have hz := hfir (k - 1) h
            rw [hz] at hj0max
            exact Bool.noConfusion hj0max
        subst hjeq
        rw [Nat.sub_add_cancel hk1] at hmins
        intro hMIeq
        exact (hAmi.mp hMIeq) hmins
    have hrec : ∀ st' : FLState,
        st'.bytes = st.bytes → st'.first = st.first →
        st'.bytesMin = st.bytesMin → st'.timeMin = st.timeMin →
        (st'.minIdx = -1 ↔ ¬ minsMetBy q bytes_min time_min k) →
        st.maxHit = false →
        ((flLoop bytesMax timeMax q.length rest' (k + 1)
            (flStep bytesMax timeMax b st')).satisfied = true ↔
          ∃ j, j + 2 ≤ q.length ∧ maxCondAt q bytesMax timeMax j = true ∧
            (∀ j' < j, maxCondAt q bytesMax timeMax j' = false) ∧
            minsMetBy q bytes_min time_min (j + 1)) := by
      intro st' he1 he2 he3 he4 hA hh
      obtain ⟨h1, h2, h3, h4, h5, h6, h7⟩ :=
        flStep_invariants q bytes_min time_min bytesMax timeMax k b st' hget
          (he1.trans hbytes) (he2.trans hfirst)
          (he3 ▸ hbm1) (he3 ▸ hbm2) (he4 ▸ htm1) (he4 ▸ htm2)
      have hnomax : ∀ j, j < k → maxCondAt q bytesMax timeMax j = false := by
        intro j hj
        cases hmc : maxCondAt q bytesMax timeMax j with
        | false => rfl
        | true =>
          exfalso
          have := hmh.mpr ⟨j, hj, hmc⟩
          rw [this] at hh
          exact Bool.noConfusion hh
      refine ih (k + 1) _ hdrop' h1 h2 h3 h4 h5 h6 ?_ ?_ ?_
      · rw [flStep_minIdx]
        constructor
        · intro h hand
          exact (hA.mp h) hand.2
        · intro h
          exact hA.mpr (fun hm => h ⟨by omega, by simpa using hm⟩)
      · rw [h7]
        constructor
        · intro h
          exact ⟨k, by omega, h⟩
        · rintro ⟨j, hj, hcond⟩
          by_cases hjk : j < k
          · rw [hnomax j hjk] at hcond
            exact Bool.noConfusion hcond
          · have hje : j = k := by omega
            subst hje
            exact hcond
      · intro j hj
        exact hnomax j (by omega)
    simp only [flLoop]
    by_cases hc : st.bytesMin = -1 ∧ st.timeMin = Option.none ∧ st.minIdx = -1
    · rw [if_pos hc]
      dsimp only
      have hminsk : minsMetBy q bytes_min time_min k :=
        ⟨hbm1.mp hc.1, htm1.mp hc.2.1⟩
      have hA : (max ((k : Int) - 1) 0 = -1 ↔
          ¬ minsMetBy q bytes_min time_min k) := by
        constructor
        · intro h
          exfalso
          have hge : (0 : Int) ≤ max ((k : Int) - 1) 0 := le_max_right _ _
          omega
        · intro h
          exact absurd hminsk h
      by_cases hh : st.maxHit = true
      · rw [if_pos hh]
        exact hbreak (max ((k : Int) - 1) 0) hA hh
      · rw [if_neg hh]
        exact hrec { st with minIdx := max ((k : Int) - 1) 0 } rfl rfl rfl rfl
          hA (Bool.not_eq_true _ ▸ hh)
    · rw [if_neg hc]
      have hA : (st.minIdx = -1 ↔ ¬ minsMetBy q bytes_min time_min k) := by
        constructor
        · intro h hmk
          exact hc ⟨hbm1.mpr hmk.1, htm1.mpr hmk.2, h⟩
        · intro h
          by_contra hne2
          have h12 : 1 ≤ k ∧ minsMetBy q bytes_min time_min (k - 1) := by
            by_contra h3
            exact hne2 (hmi.mpr h3)
          have hk : minsMetBy q bytes_min time_min k := by
            have hs := minsMetBy_succ q bytes_min time_min (k - 1) h12.2
            rwa [Nat.sub_add_cancel h12.1] at hs
          exact h hk
      by_cases hh : st.maxHit = true
      · rw [if_pos hh]
        exact hbreak st.minIdx hA hh
      · rw [if_neg hh]
        exact hrec st rfl rfl rfl rfl hA (Bool.not_eq_true _ ▸ hh)

instance (q : List GstBuffer) (bm : Int) (p : Nat) :
    Decidable (bytesMinMetBy q bm p) := by
  unfold bytesMinMetBy
  infer_instance

instance (q : List GstBuffer) (tm : Option Nat) (p : Nat) :
    Decidable (timeMinMetBy q tm p) := by
  unfold timeMinMetBy
  cases tm <;> infer_instance

instance (q : List GstBuffer) (bm : Int) (tm : Option Nat) (p : Nat) :
    Decidable (minsMetBy q bm tm p) := by
  unfold minsMetBy
  infer_instance

/-- C2 (amended): for every non-empty queue, `find_limits` returns
`satisfied = true` iff the buffers-min precheck passes and a byte or
time maximum is first exceeded at an index strictly below the last
buffer with all byte/time minimums met within that prefix.  In
particular: a maximum first exceeded while processing the last buffer
does not satisfy, and the buffers maximum never does. -/
theorem C2_find_limits_satisfied_characterization (q : List GstBuffer)
    (bytes_min buffers_min : Int) (time_min : Option Nat)
    (bytes_max buffers_max : Int) (time_max : Option Nat)
    (hq : 0 < q.length) :
    ((find_limits q bytes_min buffers_min time_min bytes_max buffers_max
        time_max).satisfied = true ↔
      flSatisfiedSpec q bytes_min buffers_min time_min bytes_max time_max) := by
  unfold find_limits flSatisfiedSpec
  dsimp only
  split_ifs with hpre
  · constructor
    · intro h
      exact h.elim
    · rintro ⟨h1, _⟩
      exact absurd hpre h1
  · have hbm1 : bytes_min = -1 ↔ bytesMinMetBy q bytes_min 0 := by
      unfold bytesMinMetBy
      constructor
      · exact Or.inl
      · rintro (h | ⟨h, _⟩)
        · exact h
        · omega
    have htm1 : time_min = Option.none ↔ timeMinMetBy q time_min 0 := by
      unfold timeMinMetBy
      cases time_min with
      | none => exact iff_of_true rfl trivial
      | some m =>
        refine iff_of_false (fun h => Option.noConfusion h) ?_
        rintro ⟨j, hj, _⟩
        omega
    have hiff := flLoop_sat_iff q bytes_min time_min bytes_max time_max q 0
      ⟨0, Option.none, bytes_min, time_min, -1, false⟩
      (List.drop_zero q).symm rfl rfl hbm1 (Or.inr rfl) htm1 (Or.inr rfl)
      (iff_of_true rfl (fun h => by omega))
      (iff_of_false Bool.false_ne_true (by rintro ⟨j, hj, _⟩; omega))
      (fun j hj => absurd hj (by omega))
    rw [hiff]
    constructor
    · intro h
      exact ⟨hpre, h⟩
    · intro h
      exact h.2

/-- C2 counterexample: a one-buffer queue of 10 bytes with
`bytes_min = 5` and `bytes_max = 5`.  All minimums are met (10 ≥ 5)
and the byte maximum is exceeded (10 ≥ 5), yet `find_limits` returns
`satisfied = false`, because the `max_hit` flag set while processing
the last buffer is only consumed at the top of a next iteration that
never runs — refuting "satisfied is true whenever both conditions
hold, regardless of the index at which the maximum was first
exceeded". -/
theorem C2_counterexample :
    ((bytesThrough [⟨10, Option.none, true, false⟩] 1 : Int) ≥ 5) ∧
    (find_limits [⟨10, Option.none, true, false⟩] 5 (-1) Option.none 5 (-1)
        Option.none).satisfied = false := by
  constructor
  · decide
  · rfl

/-- Witness for the amended C2 at a three-buffer queue
`[6, 1, 1]` with `bytes_min = 6`, `bytes_max = 5`: the max is first
exceeded at index 0 (< len-1) with the min met by then, and the
characterization yields `satisfied = true`. -/
theorem C2_find_limits_satisfied_characterization_witness :
    (find_limits
      [⟨6, Option.none, true, false⟩, ⟨1, Option.none, true, false⟩,
        ⟨1, Option.none, true, false⟩] 6 (-1) Option.none 5 (-1)
      Option.none).satisfied = true :=
  (C2_find_limits_satisfied_characterization
    [⟨6, Option.none, true, false⟩, ⟨1, Option.none, true, false⟩,
      ⟨1, Option.none, true, false⟩] 6 (-1) Option.none 5 (-1) Option.none
    (by decide)).mpr
    ⟨by decide, 0, by decide, by decide, by decide, by decide, by decide⟩

end MultiFdSink
